import Mathlib

/-!
Verification of the handoff session-capture tool.

This development shallowly embeds the core of the repository
(`internal/collector/shell.go`, `internal/collector` git/file collectors,
`internal/bundle` renderer/parser pair, `cmd/stop.go`) into Lean and proves
the specified properties about it.

Modelling conventions:
* Go strings are modelled as `List Char` (sequences of unicode scalars).
* `time.Time` is modelled as `Int` wall-clock seconds where `0` is Go's zero
  time (January 1, year 1); `time.Unix e` maps to `e + unixEpochOffset`.
* Library-level serialization of `time.Time` (RFC 3339) is abstracted as the
  injective decimal rendering of that integer.
* Fallible operations return `Option` or `Except`.
-/

namespace Handoff

/-- Go string, modelled as a list of unicode scalar values. -/
abbrev GoStr := List Char

/-- Convert a Lean string literal to the `GoStr` model. -/
def gs (s : String) : GoStr := s.toList

/-- Go `time.Time` wall clock, in seconds; `0` is Go's zero time. -/
abbrev Time := Int

/-- Seconds from Go's zero time (year 1) to the Unix epoch. -/
def unixEpochOffset : Int := 62135596800

/-- `time.Unix(e, 0)` in the model. -/
def Time.unix (e : Int) : Time := e + unixEpochOffset

/-- `t.IsZero()` in the model. -/
def Time.isZero (t : Time) : Bool := t == 0

/-- `a.Before(b)` in the model. -/
def Time.before (a b : Time) : Bool := decide (a < b)

/-- `a.after (b)`, i.e. Go `a.After(b)`, in the model. -/
def Time.after (a b : Time) : Bool := decide (b < a)

/-! ## Decimal integers (strconv; also used for the abstracted time format) -/

/-- Character for a single decimal digit. -/
def digitChar : Nat → Char
  | 0 => '0' | 1 => '1' | 2 => '2' | 3 => '3' | 4 => '4'
  | 5 => '5' | 6 => '6' | 7 => '7' | 8 => '8' | _ => '9'

/-- Digits of `n` (most significant first); `fuel` bounds the recursion and
any `fuel ≥ n` is enough. -/
def natToDecAux : Nat → Nat → GoStr
  | 0, _ => []
  | fuel + 1, n =>
    if n = 0 then [] else natToDecAux fuel (n / 10) ++ [digitChar (n % 10)]

/-- Decimal rendering of a natural number (most significant digit first). -/
def natToDec (n : Nat) : GoStr :=
  if n = 0 then ['0'] else natToDecAux n n

/-- Decimal rendering of an integer. -/
def intToDec (i : Int) : GoStr :=
  if i < 0 then '-' :: natToDec i.natAbs else natToDec i.natAbs

/-- Is `c` one of the ASCII digits 0-9? -/
def isDecDigit (c : Char) : Bool := 48 ≤ c.toNat && c.toNat ≤ 57

/-- Value of a decimal digit character, if it is one. -/
def decDigit? (c : Char) : Option Nat :=
  if isDecDigit c then some (c.toNat - 48) else none

/-- Parse a non-empty all-digit string into a natural number. -/
def parseNatDec (l : GoStr) : Option Nat :=
  if l = [] then none
  else l.foldlM (fun acc c => (decDigit? c).map (fun d => acc * 10 + d)) 0

/-- Go `strconv.ParseInt(s, 10, 64)` (overflow is not modelled). -/
def goParseInt (s : GoStr) : Option Int :=
  match s with
  | [] => none
  | c :: rest =>
    if c = '+' then (parseNatDec rest).map Int.ofNat
    else if c = '-' then (parseNatDec rest).map (fun n => -(Int.ofNat n))
    else (parseNatDec (c :: rest)).map Int.ofNat

/-! ## Go string helpers -/

/-- Whitespace per Go `unicode.IsSpace`, restricted to the ASCII range. -/
def goIsSpace (c : Char) : Bool :=
  c == ' ' || c == '\t' || c == '\n' || c == '\r' ||
    c.toNat == 11 || c.toNat == 12

/-- Go `strings.Fields`: split on whitespace, dropping empty fields. -/
def goFields (s : GoStr) : List GoStr :=
  (List.splitOnP goIsSpace s).filter (fun f => f ≠ [])

/-- Go `strings.TrimSpace` (ASCII whitespace model). -/
def goTrimSpace (s : GoStr) : GoStr :=
  ((s.dropWhile goIsSpace).reverse.dropWhile goIsSpace).reverse

/-- Go `strings.Split(s, sep)` for a single-character separator. -/
def goSplitChar (s : GoStr) (sep : Char) : List GoStr :=
  List.splitOnP (fun c => c == sep) s

/-- First index of `pat` as a substring; Go `strings.Index` (`none` for -1). -/
def goIndex (s pat : GoStr) : Option Nat :=
  if pat.isPrefixOf s then some 0
  else
    match s with
    | [] => none
    | _ :: t => (goIndex t pat).map (· + 1)

/-- Go `strings.Contains`. -/
def goContains (s pat : GoStr) : Bool := (goIndex s pat).isSome

/-- Drop trailing path separators (step of Go `filepath.Base`). -/
def dropTrailingSeps (p : GoStr) : GoStr :=
  (p.reverse.dropWhile (fun c => c == '/')).reverse

/-- Last path component (step of Go `filepath.Base`). -/
def lastComponent (p : GoStr) : GoStr :=
  (p.reverse.takeWhile (fun c => c != '/')).reverse

/-- Go `filepath.Base` (unix separator). -/
def goFilepathBase (p : GoStr) : GoStr :=
  if p = [] then ['.']
  else
    let q := dropTrailingSeps p
    if q = [] then ['/'] else lastComponent q

/-! ## Data model (`internal/session`, `internal/bundle/bundle.go`) -/

/-- A developer-provided note attached to a session (`session.Annotation`). -/
structure  Annotation where
  timestamp : Time
  message : GoStr
  isSummary : Bool
deriving DecidableEq, Repr

/-- A single file modification event (`session.FileEdit`). -/
structure FileEdit where
  path : GoStr
  timestamp : Time
  diff : GoStr
deriving DecidableEq, Repr

/-- An active or completed tracking session (`session.Session`). -/
structure Session where
  id : GoStr
  startTime : Time
  stopTime : Option Time
  workDir : GoStr
  annotations : List  Annotation
  fileEdits : List FileEdit
  historyBaselineCount : Nat
deriving DecidableEq, Repr

/-- A single terminal command from shell history (`bundle.Command`). -/
structure Command where
  raw : GoStr
  timestamp : Time
deriving DecidableEq, Repr

/-- Git repository state captured at session stop (`bundle.GitInfo`). -/
structure GitInfo where
  branch : GoStr
  headCommit : GoStr
  diff : GoStr
  stagedDiff : GoStr
  recentLog : List GoStr
deriving DecidableEq, Repr

/-- Summary metadata about the session (`bundle.SessionMeta`). -/
structure SessionMeta where
  id : GoStr
  startTime : Time
  stopTime : Time
  workDir : GoStr
  duration : GoStr
  author : GoStr
deriving DecidableEq, Repr

/-- The complete renderable representation of a handoff (`bundle.ContextBundle`). -/
structure ContextBundle where
  session : SessionMeta
  annotations : List  Annotation
  fileEdits : List FileEdit
  git : Option GitInfo
  commands : List Command
  editorTabs : List GoStr
deriving DecidableEq, Repr

/-- A collector's partial result (`collector.CollectorResult`). -/
structure CollectorResult where
  fileEdits : List FileEdit := []
  gitInfo : Option GitInfo := none
  commands : List Command := []
  editorTabs : List GoStr := []
  warnings : List GoStr := []
deriving DecidableEq, Repr

/-! ## Shell history filtering (`internal/collector/shell.go`) -/

/-- Maximum number of recent commands when the history has no timestamps. -/
def maxNoTimestampCommands : Nat := 50

/-- Handoff subcommands that are pure session bookkeeping. -/
def handoffNoiseCommands : List GoStr := [gs "start", gs "stop"]

/-- `isHandoffNoise`: true if the command is a handoff start/stop invocation. -/
def isHandoffNoise (raw : GoStr) : Bool :=
  match goFields raw with
  | f0 :: f1 :: _ =>
    goFilepathBase f0 == gs "handoff" &&
      handoffNoiseCommands.any (fun noise => f1 == noise)
  | _ => false

/-- Warning emitted when the history count at stop is at most the baseline. -/
def historyNotFlushedWarning : GoStr :=
  gs "shell history was not flushed during session — add setopt INC_APPEND_HISTORY to ~/.zshrc (zsh) or PROMPT_COMMAND=history -a to ~/.bashrc (bash) to capture commands in real time"

/-- Warning emitted when no-timestamp commands are included. -/
def noTimestampWarning (n : Nat) : GoStr :=
  gs "shell history has no timestamps; showing " ++ natToDec n ++
    gs " commands since session start"

/-- Window-inclusion test used by `filterCommands` for timestamped commands. -/
def inWindow (c : Command) (start : Time) (stop : Option Time) : Bool :=
  !(Time.before c.timestamp start) &&
    !(match stop with
      | some st => Time.after c.timestamp st
      | none => false)

/-- The noise-stripping loop of `filterCommands`: discard handoff
start/stop invocations. -/
def keepCommands (commands : List Command) : List Command :=
  commands.filter (fun c => !isHandoffNoise c.raw)

/-- The no-timestamp class of a parsed command list: the zero-timestamp,
non-noise commands, in input order (as classified by `filterCommands`). -/
def noTimestampClass (commands : List Command) : List Command :=
  (keepCommands commands).filter (fun c => c.timestamp.isZero)

/-- The timestamped commands of `filterCommands`, filtered to the window. -/
def windowedCommands (commands : List Command) (start : Time)
    (stop : Option Time) : List Command :=
  ((keepCommands commands).filter (fun c => !c.timestamp.isZero)).filter
    (fun c => inWindow c start stop)

/-- The baseline-skipping step of `filterCommands` for no-timestamp commands,
with the warning it may produce. -/
def freshCommands (noTimestamp : List Command) (baselineCount : Nat) :
    List Command × List GoStr :=
  if baselineCount > 0 ∧ baselineCount < noTimestamp.length then
    (noTimestamp.drop baselineCount, [])
  else if baselineCount ≥ noTimestamp.length then
    ([], [historyNotFlushedWarning])
  else (noTimestamp, [])

/-- The tail-truncation step of `filterCommands`: keep at most the last
`maxNoTimestampCommands` entries. -/
def clipFresh (fresh : List Command) : List Command :=
  if fresh.length > maxNoTimestampCommands then
    fresh.drop (fresh.length - maxNoTimestampCommands)
  else fresh

/-- `filterCommands` from `shell.go`: filters commands to the session window
`[start, stop]`, skips the first `baselineCount` no-timestamp entries and
takes up to `maxNoTimestampCommands` of what remains, and strips handoff
start/stop noise. Returns the kept commands and the accumulated warnings. -/
def filterCommands (commands : List Command) (start : Time) (stop : Option Time)
    (baselineCount : Nat) : List Command × List GoStr :=
  if (noTimestampClass commands).length > 0 then
    (windowedCommands commands start stop ++
       clipFresh (freshCommands (noTimestampClass commands) baselineCount).1,
     if (clipFresh (freshCommands (noTimestampClass commands) baselineCount).1).length > 0 then
       (freshCommands (noTimestampClass commands) baselineCount).2 ++
         [noTimestampWarning
           (clipFresh (freshCommands (noTimestampClass commands) baselineCount).1).length]
     else (freshCommands (noTimestampClass commands) baselineCount).2)
  else (windowedCommands commands start stop, [])

/-- The shell collector's fallback path once the history file has been read
and parsed (`ShellCollector.collectFromHistory`, filtering step). -/
def ShellCollector.collectParsed (parsed : List Command) (sess : Session) :
    CollectorResult :=
  { commands := (filterCommands parsed sess.startTime sess.stopTime
      sess.historyBaselineCount).1,
    warnings := (filterCommands parsed sess.startTime sess.stopTime
      sess.historyBaselineCount).2 }

/-- Keep the last `n` elements of a list, by position. -/
def takeLast (n : Nat) (l : List α) : List α :=
  if l.length > n then l.drop (l.length - n) else l

/-! ## Shell history parsers (`shell.go`); input is the list of scanned lines -/

/-- The `parseBashHistory` scan loop; `pendingTime` holds the epoch of a
preceding `#<epoch>` line, reset after each command or non-timestamp line. -/
def parseBashLines : List GoStr → Time → List Command
  | [], _ => []
  | line :: rest, pendingTime =>
    if (gs "#").isPrefixOf line then
      match goParseInt (line.drop 1) with
      | some epoch => parseBashLines rest (Time.unix epoch)
      | none => parseBashLines rest 0
    else if line = [] then parseBashLines rest 0
    else Command.mk line pendingTime :: parseBashLines rest 0

/-- `parseBashHistory`: plain command lines, each optionally preceded by a
`#<epoch>` timestamp line. -/
def parseBashHistory (lines : List GoStr) : List Command :=
  parseBashLines lines 0

/-- The extended-format branch of `parseZshHistory` for one line:
`: <epoch>:<elapsed>;<command>`. -/
def parseZshExtended (line : GoStr) : Option Command :=
  if (gs ": ").isPrefixOf line then
    match goIndex (line.drop 2) (gs ";") with
    | some semiIdx =>
      if semiIdx > 0 then
        match goIndex ((line.drop 2).take semiIdx) (gs ":") with
        | some colonIdx =>
          if colonIdx > 0 then
            match goParseInt (((line.drop 2).take semiIdx).take colonIdx) with
            | some epoch =>
              some (Command.mk ((line.drop 2).drop (semiIdx + 1))
                (Time.unix epoch))
            | none => none
          else none
        | none => none
      else none
    | none => none
  else none

/-- `parseZshHistory`: extended-format lines with a plain no-timestamp
fallback; empty lines are skipped. -/
def parseZshHistory : List GoStr → List Command
  | [] => []
  | line :: rest =>
    if line = [] then parseZshHistory rest
    else
      match parseZshExtended line with
      | some c => c :: parseZshHistory rest
      | none => Command.mk line 0 :: parseZshHistory rest

/-- The `parseFishHistory` scan loop carrying the current entry state. -/
def parseFishLines : List GoStr → GoStr → Time → Bool → List Command
  | [], currentCmd, currentTime, inEntry =>
    if inEntry ∧ currentCmd ≠ [] then [Command.mk currentCmd currentTime]
    else []
  | line :: rest, currentCmd, currentTime, inEntry =>
    if (gs "- cmd: ").isPrefixOf line then
      (if inEntry ∧ currentCmd ≠ [] then [Command.mk currentCmd currentTime]
       else []) ++ parseFishLines rest (line.drop 7) 0 true
    else if inEntry ∧ (gs "  when: ").isPrefixOf line then
      match goParseInt (goTrimSpace (line.drop 8)) with
      | some epoch => parseFishLines rest currentCmd (Time.unix epoch) inEntry
      | none => parseFishLines rest currentCmd currentTime inEntry
    else parseFishLines rest currentCmd currentTime inEntry

/-- `parseFishHistory`: `- cmd:` lines each followed by a `when:` line. -/
def parseFishHistory (lines : List GoStr) : List Command :=
  parseFishLines lines [] 0 false

/-- A well-formed bash history: per entry, an optional `#<epoch>` timestamp
line followed by the command line (the documented bash grammar). -/
def encodeBashHistory (entries : List (GoStr × Option Int)) : List GoStr :=
  (entries.map (fun e =>
    match e.2 with
    | some epoch => [('#' :: intToDec epoch), e.1]
    | none => [e.1])).flatten

/-- A well-formed zsh extended history: `: <epoch>:<elapsed>;<command>`. -/
def encodeZshHistory (entries : List (GoStr × Int × Nat)) : List GoStr :=
  entries.map (fun e =>
    gs ": " ++ intToDec e.2.1 ++ [':'] ++ natToDec e.2.2 ++ [';'] ++ e.1)

/-- A well-formed fish history: `- cmd: <command>` then `  when: <epoch>`. -/
def encodeFishHistory (entries : List (GoStr × Int)) : List GoStr :=
  (entries.map (fun e =>
    [gs "- cmd: " ++ e.1, gs "  when: " ++ intToDec e.2])).flatten

/-- The command list a well-formed bash history encodes. -/
def bashExpected (entries : List (GoStr × Option Int)) : List Command :=
  entries.map (fun e =>
    Command.mk e.1 (match e.2 with
      | some epoch => Time.unix epoch
      | none => 0))

/-- The command list a well-formed zsh history encodes. -/
def zshExpected (entries : List (GoStr × Int × Nat)) : List Command :=
  entries.map (fun e => Command.mk e.1 (Time.unix e.2.1))

/-- The command list a well-formed fish history encodes. -/
def fishExpected (entries : List (GoStr × Int)) : List Command :=
  entries.map (fun e => Command.mk e.1 (Time.unix e.2))

/-! ## Git collector (`internal/collector`, git state) -/

/-- Error from running a git subprocess: an `exec.ExitError` with an exit
code, or any other execution error. -/
inductive ExecErr where
  | exit (code : Int)
  | other
deriving DecidableEq, Repr

/-- `isExitCode128`: the error is an exit error with code 128. -/
def isExitCode128 : ExecErr → Bool
  | .exit code => code == 128
  | .other => false

/-- A `GitRunner` executes a git command in a directory, returning stdout. -/
abbrev GitRunner := GoStr → List GoStr → Except ExecErr GoStr

/-- `parseLogLines`: split git log output into lines, dropping empty ones. -/
def parseLogLines (output : GoStr) : List GoStr :=
  (goSplitChar output '\n').filter (fun l => l ≠ [])

/-- RFC 3339 rendering of a time, abstracted as its injective decimal form. -/
def goFormatRFC3339 (t : Time) : GoStr := intToDec t

/-- The working directory used by the git collector: the collector's own
`WorkDir` if set, else the session's. -/
def gitWorkDir (g : GoStr) (sess : Session) : GoStr :=
  if g = [] then sess.workDir else g

/-- Argument vector of the branch query (also the is-a-repo check). -/
def gitBranchArgs : List GoStr := [gs "rev-parse", gs "--abbrev-ref", gs "HEAD"]

/-- Argument vector of the head commit query. -/
def gitHeadArgs : List GoStr := [gs "rev-parse", gs "HEAD"]

/-- Argument vector of the unstaged diff query. -/
def gitDiffArgs : List GoStr := [gs "diff"]

/-- Argument vector of the staged diff query. -/
def gitStagedArgs : List GoStr := [gs "diff", gs "--staged"]

/-- Argument vector of the session-window commit log query. -/
def gitLogArgs (start : Time) : List GoStr :=
  [gs "log", gs "--oneline", gs "--since=" ++ goFormatRFC3339 start]

/-- `GitCollector.Collect` with the subprocess runner abstracted: runs the
five git queries in order; exit code 128 on the branch query means "not a
git repository" (warning, no git info); any other failure is fatal. -/
def GitCollector.collect (runner : GitRunner) (gwd : GoStr) (sess : Session) :
    Except ExecErr CollectorResult :=
  match runner (gitWorkDir gwd sess) gitBranchArgs with
  | .error e =>
    if isExitCode128 e then
      .ok { warnings := [gs "not a git repository"] }
    else .error e
  | .ok branch =>
    match runner (gitWorkDir gwd sess) gitHeadArgs with
    | .error e => .error e
    | .ok headCommit =>
      match runner (gitWorkDir gwd sess) gitDiffArgs with
      | .error e => .error e
      | .ok diff =>
        match runner (gitWorkDir gwd sess) gitStagedArgs with
        | .error e => .error e
        | .ok stagedDiff =>
          match runner (gitWorkDir gwd sess) (gitLogArgs sess.startTime) with
          | .error e => .error e
          | .ok logOut =>
            .ok { gitInfo := some {
              branch := goTrimSpace branch,
              headCommit := goTrimSpace headCommit,
              diff := diff,
              stagedDiff := stagedDiff,
              recentLog := parseLogLines logOut } }

/-! ## File activity collector (`internal/collector`, file walking) -/

/-- Go `filepath.Match`, restricted to `*`, `?` and literal characters
(character classes and escapes are not modelled; the repository only feeds
extension globs such as `*.log` through this). -/
def goMatch : GoStr → GoStr → Bool
  | [], [] => true
  | [], _ :: _ => false
  | '*' :: ps, [] => goMatch ps []
  | '*' :: ps, c :: cs => goMatch ps (c :: cs) || goMatch ('*' :: ps) cs
  | '?' :: ps, _ :: cs => goMatch ps cs
  | p :: ps, c :: cs => p == c && goMatch ps cs
  | _ :: _, [] => false
termination_by p n => p.length + n.length
decreasing_by all_goals simp <;> omega

/-- Lexical relative path (model of Go `filepath.Rel`; on failure the
original path is used, as in `isIgnored`). -/
def goFilepathRel (base target : GoStr) : GoStr :=
  if (base ++ ['/']).isPrefixOf target then target.drop (base.length + 1)
  else target

/-- `FileCollector.isIgnored`: the path matches an ignore pattern by base
name, relative path, or full path. -/
def FileCollector.isIgnored (workDir : GoStr) (path : GoStr)
    (patterns : List GoStr) : Bool :=
  patterns.any (fun pattern =>
    goMatch pattern (goFilepathBase path) ||
    goMatch pattern (if workDir ≠ [] then goFilepathRel workDir path else path) ||
    goMatch pattern path)

/-- One latest-timestamp map update (`latest[path] = t` when absent or
newer), preserving insertion order; models one step on the `latest` map. -/
def updateLater : List (GoStr × Time) → GoStr → Time → List (GoStr × Time)
  | [], p, t => [(p, t)]
  | (q, t0) :: rest, p, t =>
    if q = p then
      (if Time.after t t0 then (q, t) :: rest else (q, t0) :: rest)
    else (q, t0) :: updateLater rest p t

/-- Fold a list of `(path, mtime)` events into a latest-timestamp map. -/
def foldUpdate (m : List (GoStr × Time)) (evs : List (GoStr × Time)) :
    List (GoStr × Time) :=
  evs.foldl (fun m e => updateLater m e.1 e.2) m

/-- First-match lookup in a latest-timestamp map. -/
def lookupA : List (GoStr × Time) → GoStr → Option Time
  | [], _ => none
  | (q, t) :: rest, p => if q = p then some t else lookupA rest p

/-- The stop bound used by the file collector: the session stop time if
set, else the wall clock at collection time. -/
def collectStopTime (sess : Session) (now : Time) : Time :=
  match sess.stopTime with
  | some t => t
  | none => now

/-- Is an mtime within `[start, stopTime]` (the walk's inclusion test)? -/
def mtimeInWindow (t start stopT : Time) : Bool :=
  !(Time.before t start) && !(Time.after t stopT)

/-- `FileCollector.Collect` with filesystem interaction abstracted: `walk`
is the list of `(path, mtime)` pairs the directory walk visits, and
`diffOf` is the captured per-file diff. Seeds a latest-timestamp map from
the session's pre-recorded edits, merges the in-window non-ignored walk
entries keeping the later timestamp per path, and emits one record per
non-ignored path. -/
def FileCollector.collect (patterns : List GoStr) (workDir : GoStr)
    (walk : List (GoStr × Time)) (diffOf : GoStr → GoStr) (now : Time)
    (sess : Session) : CollectorResult :=
  { fileEdits :=
      ((walk.foldl (fun m e =>
          if FileCollector.isIgnored workDir e.1 patterns then m
          else if Time.before e.2 sess.startTime ||
              Time.after e.2 (collectStopTime sess now) then m
          else updateLater m e.1 e.2)
        (foldUpdate [] (sess.fileEdits.map (fun fe => (fe.path, fe.timestamp))))).filter
          (fun pt => !FileCollector.isIgnored workDir pt.1 patterns)).map
        (fun pt => FileEdit.mk pt.1 pt.2 (diffOf pt.1)) }

/-- All timestamps recorded for `p` in the session's pre-recorded edits. -/
def sessOccurrences (sess : Session) (p : GoStr) : List Time :=
  (sess.fileEdits.filter (fun fe => fe.path == p)).map (fun fe => fe.timestamp)

/-- All in-window mtimes the directory scan observes for `p`. -/
def scanOccurrences (walk : List (GoStr × Time)) (start stopT : Time)
    (p : GoStr) : List Time :=
  (walk.filter (fun e => e.1 == p && mtimeInWindow e.2 start stopT)).map
    (fun e => e.2)

/-- The later of an optional existing timestamp and a new one (the update
rule of the latest-timestamp map). -/
def combineMax : Option Time → Time → Time
  | none, t => t
  | some t0, t => if Time.after t t0 then t else t0

/-- Fold `combineMax` over a list of timestamps. -/
def foldMax (o : Option Time) (ts : List Time) : Option Time :=
  ts.foldl (fun o t => some (combineMax o t)) o

/-! ## The stop command (`cmd/stop.go`) -/

/-- Observable irreversible steps of the stop operation, in order. -/
inductive StopEvent where
  | rendered
  | wrote
  | deleted
deriving DecidableEq, Repr

/-- Outcome of the stop operation: the command result, the persisted session
record afterwards, the steps performed, and the output file if written. -/
structure StopOutcome where
  result : Except GoStr Unit
  store : Option Session
  events : List StopEvent
  output : Option GoStr
deriving Repr

/-- The collector loop of `stop.go`: run each collector in order against the
session, merging partial results; the first fatal error aborts the loop. -/
def runCollectors : List (Session → Except GoStr CollectorResult) → Session →
    CollectorResult → Except GoStr CollectorResult
  | [], _, merged => .ok merged
  | c :: cs, sess, merged =>
    match c sess with
    | .error e => .error e
    | .ok result =>
      runCollectors cs sess
        { fileEdits := merged.fileEdits ++ result.fileEdits,
          gitInfo := match result.gitInfo with
            | some g => some g
            | none => merged.gitInfo,
          commands := merged.commands ++ result.commands,
          editorTabs := merged.editorTabs ++ result.editorTabs,
          warnings := merged.warnings ++ result.warnings }

/-- Duration string `now.Sub(start).Round(time.Second).String()`, abstracted
as the injective decimal rendering of whole seconds. -/
def goDurationString (d : Int) : GoStr := intToDec d

/-- The in-memory session update performed by `stop.go` before collection:
set the stop time, and append a summary annotation when `-m` was given. -/
def stopSession (s0 : Session) (stopMessage : GoStr) (now : Time) : Session :=
  { s0 with
    stopTime := some now,
    annotations := s0.annotations ++
      (if stopMessage ≠ [] then [⟨now, stopMessage, true⟩] else []) }

/-- Build the `ContextBundle` exactly as `stop.go` does. -/
def buildBundle (s : Session) (merged : CollectorResult) (now : Time)
    (author : GoStr) : ContextBundle :=
  { session := {
      id := s.id,
      startTime := s.startTime,
      stopTime := now,
      workDir := s.workDir,
      duration := goDurationString (now - s.startTime),
      author := author },
    annotations := s.annotations,
    fileEdits := merged.fileEdits,
    git := merged.gitInfo,
    commands := merged.commands,
    editorTabs := merged.editorTabs }

/-- The end-of-session stop operation (`stop.go` RunE) with effectful
collaborators abstracted: `store0` is the persisted record, the collectors
run in order against the stop-updated session, `render` serializes the
bundle, and `writeOk`/`deleteOk` model whether the output write and the
record delete succeed. `events` records the irreversible steps performed. -/
def stopRun (store0 : Option Session) (stopMessage : GoStr)
    (collectors : List (Session → Except GoStr CollectorResult))
    (render : ContextBundle → Except GoStr GoStr)
    (writeOk : Bool) (deleteOk : Bool) (now : Time) (author : GoStr) :
    StopOutcome :=
  match store0 with
  | none =>
    { result := .error (gs "no active session"), store := store0,
      events := [], output := none }
  | some s0 =>
    match runCollectors collectors (stopSession s0 stopMessage now) {} with
    | .error e =>
      { result := .error (gs "collector error: " ++ e), store := store0,
        events := [], output := none }
    | .ok merged =>
      match render (buildBundle (stopSession s0 stopMessage now) merged now
          author) with
      | .error e =>
        { result := .error (gs "render bundle: " ++ e), store := store0,
          events := [.rendered], output := none }
      | .ok data =>
        if writeOk then
          if deleteOk then
            { result := .ok (), store := none,
              events := [.rendered, .wrote, .deleted], output := some data }
          else
            { result := .error (gs "delete failed"), store := store0,
              events := [.rendered, .wrote], output := some data }
        else
          { result := .error (gs "write output file failed"), store := store0,
            events := [.rendered], output := none }

def lbrace : Char := Char.ofNat 123

def rbrace : Char := Char.ofNat 125


inductive Json where
  | null : Json
  | bool : Bool → Json
  | str : GoStr → Json
  | arr : List Json → Json
  | obj : List (GoStr × Json) → Json
deriving Repr


def hexDigitChar (n : Nat) : Char :=
  if n < 10 then digitChar n
  else if n = 10 then 'a'
  else if n = 11 then 'b'
  else if n = 12 then 'c'
  else if n = 13 then 'd'
  else if n = 14 then 'e'
  else 'f'


def escapeChar (c : Char) : GoStr :=
  if c = '"' then ['\\', '"']
  else if c = '\\' then ['\\', '\\']
  else if c = '\n' then ['\\', 'n']
  else if c = '\r' then ['\\', 'r']
  else if c = '\t' then ['\\', 't']
  else if c.toNat < 32 ∨ c = '<' ∨ c = '>' ∨ c = '&' then
    ['\\', 'u', '0', '0', hexDigitChar (c.toNat / 16), hexDigitChar (c.toNat % 16)]
  else if c.toNat = 8232 ∨ c.toNat = 8233 then
    ['\\', 'u', '2', '0', '2', hexDigitChar (c.toNat % 16)]
  else [c]


def printStr (s : GoStr) : GoStr := '"' :: (s.map escapeChar).flatten ++ ['"']


section PrinterG

/- Layout decorations of the `encoding/json` encoder: `opn d` is emitted
after an opening bracket of a composite at depth `d`, `sep d` after each
comma between elements at depth `d`, `cls d` before the closing bracket of
a composite at depth `d`, and `sp` after the colon of an object key.
`json.Marshal` uses empty decorations; `json.MarshalIndent(v, "", "  ")`
uses newline-plus-indentation decorations and a single space. -/
variable (opn sep cls : Nat → GoStr) (sp : GoStr)

mutual
def printJsonG : Nat → Json → GoStr
  | _, .null => gs "null"
  | _, .bool true => gs "true"
  | _, .bool false => gs "false"
  | _, .str s => printStr s
  | _, .arr [] => gs "[]"
  | d, .arr (x :: xs) =>
    '[' :: (opn d ++ printItemsG (d + 1) (x :: xs)) ++ cls d ++ [']']
  | _, .obj [] => [lbrace, rbrace]
  | d, .obj (f :: fs) =>
    lbrace :: (opn d ++ printFieldsG (d + 1) (f :: fs)) ++ cls d ++ [rbrace]
def printItemsG : Nat → List Json → GoStr
  | _, [] => []
  | dd, [x] => printJsonG dd x
  | dd, x :: y :: ys =>
    printJsonG dd x ++ ',' :: (sep dd ++ printItemsG dd (y :: ys))
def printFieldsG : Nat → List (GoStr × Json) → GoStr
  | _, [] => []
  | dd, [f] => printStr f.1 ++ ':' :: (sp ++ printJsonG dd f.2)
  | dd, f :: g :: gs2 =>
    printStr f.1 ++ ':' :: (sp ++ printJsonG dd f.2)
      ++ ',' :: (sep dd ++ printFieldsG dd (g :: gs2))
end

end PrinterG


/-- `json.Marshal`: the compact wire form, no layout decorations. -/
def printJson (j : Json) : GoStr :=
  printJsonG (fun _ => []) (fun _ => []) (fun _ => []) [] 0 j


/-- Two-space indentation at depth `d`, as produced by
`json.MarshalIndent(v, "", "  ")`. -/
def ind (d : Nat) : GoStr := List.replicate (2 * d) ' '


/-- `json.MarshalIndent(v, "", "  ")`: newline plus deeper indentation after
an opening bracket and after each comma, newline plus the composite's own
indentation before a closing bracket, and a space after each key's colon. -/
def printJsonInd (j : Json) : GoStr :=
  printJsonG (fun d => '\n' :: ind (d + 1)) (fun dd => '\n' :: ind dd)
    (fun d => '\n' :: ind d) [' '] 0 j


def parseHexDigit (c : Char) : Option Nat :=
  if 48 ≤ c.toNat ∧ c.toNat ≤ 57 then some (c.toNat - 48)
  else if 97 ≤ c.toNat ∧ c.toNat ≤ 102 then some (c.toNat - 87)
  else if 65 ≤ c.toNat ∧ c.toNat ≤ 70 then some (c.toNat - 55)
  else none


def parseStrBody : GoStr → Option (GoStr × GoStr)
  | [] => none
  | c :: rest =>
    if c = '"' then some ([], rest)
    else if c = '\\' then
      match rest with
      | [] => none
      | e :: rest2 =>
        if e = '"' then (parseStrBody rest2).map (fun r => ('"' :: r.1, r.2))
        else if e = '\\' then (parseStrBody rest2).map (fun r => ('\\' :: r.1, r.2))
        else if e = '/' then (parseStrBody rest2).map (fun r => ('/' :: r.1, r.2))
        else if e = 'b' then (parseStrBody rest2).map (fun r => ('\x08' :: r.1, r.2))
        else if e = 'f' then (parseStrBody rest2).map (fun r => ('\x0c' :: r.1, r.2))
        else if e = 'n' then (parseStrBody rest2).map (fun r => ('\n' :: r.1, r.2))
        else if e = 'r' then (parseStrBody rest2).map (fun r => ('\r' :: r.1, r.2))
        else if e = 't' then (parseStrBody rest2).map (fun r => ('\t' :: r.1, r.2))
        else if e = 'u' then
          match rest2 with
          | h1 :: h2 :: h3 :: h4 :: rest3 =>
            match parseHexDigit h1, parseHexDigit h2, parseHexDigit h3,
                parseHexDigit h4 with
            | some d1, some d2, some d3, some d4 =>
              (parseStrBody rest3).map (fun r =>
                (Char.ofNat (((d1 * 16 + d2) * 16 + d3) * 16 + d4) :: r.1, r.2))
            | _, _, _, _ => none
          | _ => none
        else none
    else if c.toNat < 32 then none
    else (parseStrBody rest).map (fun r => (c :: r.1, r.2))


/-- The whitespace characters the `encoding/json` scanner skips between
tokens (`isSpace` in `scanner.go`): space, tab, newline, carriage return. -/
def isJsonWS (c : Char) : Bool := c = ' ' || c = '\t' || c = '\n' || c = '\r'


/-- Skip insignificant whitespace before the next token. -/
def skipWS (s : GoStr) : GoStr := s.dropWhile isJsonWS


mutual

def parseVal : Nat → GoStr → Option (Json × GoStr)
  | 0, _ => none
  | fuel + 1, input =>
    match skipWS input with
    | 'n' :: 'u' :: 'l' :: 'l' :: rest => some (.null, rest)
    | 't' :: 'r' :: 'u' :: 'e' :: rest => some (.bool true, rest)
    | 'f' :: 'a' :: 'l' :: 's' :: 'e' :: rest => some (.bool false, rest)
    | '"' :: rest => (parseStrBody rest).map (fun r => (.str r.1, r.2))
    | '[' :: rest =>
      match skipWS rest with
      | ']' :: rest2 => some (.arr [], rest2)
      | rest2 => (parseItems fuel rest2).map (fun r => (.arr r.1, r.2))
    | c :: rest =>
      if c = lbrace then
        match skipWS rest with
        | c2 :: rest2 =>
          if c2 = rbrace then some (.obj [], rest2)
          else (parseFields fuel (c2 :: rest2)).map (fun r => (.obj r.1, r.2))
        | [] => none
      else none
    | _ => none


def parseItems : Nat → GoStr → Option (List Json × GoStr)
  | 0, _ => none
  | fuel + 1, input =>
    match parseVal fuel input with
    | none => none
    | some (v, rest) =>
      match skipWS rest with
      | [] => none
      | c :: rest2 =>
        if c = ',' then (parseItems fuel rest2).map (fun r => (v :: r.1, r.2))
        else if c = ']' then some ([v], rest2)
        else none


def parseFields : Nat → GoStr → Option (List (GoStr × Json) × GoStr)
  | 0, _ => none
  | fuel + 1, input =>
    match skipWS input with
    | '"' :: rest =>
      match parseStrBody rest with
      | none => none
      | some (k, rest2) =>
        match skipWS rest2 with
        | ':' :: rest3 =>
          match parseVal fuel rest3 with
          | none => none
          | some (v, rest4) =>
            match skipWS rest4 with
            | [] => none
            | c :: rest5 =>
              if c = ',' then
                (parseFields fuel rest5).map (fun r => ((k, v) :: r.1, r.2))
              else if c = rbrace then some ([(k, v)], rest5)
              else none
        | _ => none
    | _ => none
end


mutual

def jsonDepth : Json → Nat
  | .null => 1
  | .bool _ => 1
  | .str _ => 1
  | .arr xs => depthItems xs + 1
  | .obj fs => depthFields fs + 1

def depthItems : List Json → Nat
  | [] => 0
  | x :: xs => max (jsonDepth x) (depthItems xs) + 1

def depthFields : List (GoStr × Json) → Nat
  | [] => 0
  | f :: fs => max (jsonDepth f.2) (depthFields fs) + 1
end


def jsonUnmarshal (s : GoStr) : Option Json :=
  match parseVal (s.length + 1) s with
  | some (j, rest) => if skipWS rest = [] then some j else none
  | none => none








/-- A string consisting solely of insignificant JSON whitespace. -/
def allWS (w : GoStr) : Prop := ∀ ch ∈ w, isJsonWS ch = true


/-- `encoding/json` marshaling of a `time.Time`: a quoted RFC3339Nano string,
modeled (like `goFormatRFC3339`) as the injective decimal rendering of the
instant. -/
def timeJson (t : Time) : Json := .str (intToDec t)


/-- `encoding/json` unmarshaling into a `time.Time` field: absent or `null`
leaves the zero time; a string is parsed (failing on malformed input); any
other shape is a type error. -/
def decTime : Option Json → Option Time
  | none => some 0
  | some .null => some 0
  | some (.str s) => goParseInt s
  | some _ => none


/-- Unmarshaling into a `string` field: absent or `null` leaves the empty
string; any non-string shape is a type error. -/
def decStr : Option Json → Option GoStr
  | none => some []
  | some .null => some []
  | some (.str s) => some s
  | some _ => none


/-- Unmarshaling into a `bool` field. -/
def decBool : Option Json → Option Bool
  | none => some false
  | some .null => some false
  | some (.bool b) => some b
  | some _ => none


/-- Element-wise decoding of a JSON array, failing if any element fails
(the per-element loop of `encoding/json` array unmarshaling). -/
def optMapList (g : α → Option β) : List α → Option (List β)
  | [] => some []
  | x :: xs =>
    match g x with
    | none => none
    | some y => (optMapList g xs).map (fun ys => y :: ys)


/-- Duplicate keys in a JSON object: `encoding/json` lets the last
occurrence win. -/
def jlookup (k : GoStr) : List (GoStr × Json) → Option Json
  | [] => none
  | f :: fs =>
    match jlookup k fs with
    | some v => some v
    | none => if f.1 = k then some f.2 else none


/-- `json.Marshal` of a `session.Annotation` (field order and tags from
`session.go`). -/
def annotationJson (a :  Annotation) : Json :=
  .obj [(gs "timestamp", timeJson a.timestamp),
        (gs "message", .str a.message),
        (gs "is_summary", .bool a.isSummary)]


/-- `json.Marshal` of a `session.FileEdit`; `diff` carries `omitempty`. -/
def fileEditJson (f : FileEdit) : Json :=
  .obj ([(gs "path", .str f.path), (gs "timestamp", timeJson f.timestamp)]
    ++ (if f.diff = [] then [] else [(gs "diff", .str f.diff)]))


/-- `json.Marshal` of a `bundle.Command`. -/
def commandJson (c : Command) : Json :=
  .obj [(gs "raw", .str c.raw), (gs "timestamp", timeJson c.timestamp)]


/-- `json.Marshal` of a `bundle.GitInfo`. -/
def gitInfoJson (g : GitInfo) : Json :=
  .obj [(gs "branch", .str g.branch),
        (gs "head_commit", .str g.headCommit),
        (gs "diff", .str g.diff),
        (gs "staged_diff", .str g.stagedDiff),
        (gs "recent_log", .arr (g.recentLog.map (fun l => .str l)))]


/-- `json.Marshal` of a `bundle.SessionMeta`; `author` carries `omitempty`. -/
def sessionMetaJson (m : SessionMeta) : Json :=
  .obj ([(gs "id", .str m.id),
         (gs "start_time", timeJson m.startTime),
         (gs "stop_time", timeJson m.stopTime),
         (gs "work_dir", .str m.workDir),
         (gs "duration", .str m.duration)]
    ++ (if m.author = [] then [] else [(gs "author", .str m.author)]))


/-- `json.Marshal` of a `bundle.ContextBundle`; `git` carries `omitempty`
on a pointer and is omitted when nil. Non-empty slices marshal as arrays
(a nil slice would marshal as `null`, which unmarshals to the same empty
list, so the encodings agree on every decoded value). -/
def bundleJson (b : ContextBundle) : Json :=
  .obj ([(gs "session", sessionMetaJson b.session),
         (gs "annotations", .arr (b.annotations.map annotationJson)),
         (gs "file_edits", .arr (b.fileEdits.map fileEditJson))]
    ++ (match b.git with
        | none => []
        | some g => [(gs "git", gitInfoJson g)])
    ++ [(gs "commands", .arr (b.commands.map commandJson)),
        (gs "editor_tabs", .arr (b.editorTabs.map (fun t => .str t)))])


/-- Unmarshaling one annotation object. -/
def decodeAnnotation : Json → Option  Annotation
  | .null => some ⟨0, [], false⟩
  | .obj fs =>
    match decTime (jlookup (gs "timestamp") fs) with
    | none => none
    | some t =>
      match decStr (jlookup (gs "message") fs) with
      | none => none
      | some m =>
        match decBool (jlookup (gs "is_summary") fs) with
        | none => none
        | some s => some ⟨t, m, s⟩
  | _ => none


/-- Unmarshaling one file-edit object. -/
def decodeFileEdit : Json → Option FileEdit
  | .null => some ⟨[], 0, []⟩
  | .obj fs =>
    match decStr (jlookup (gs "path") fs) with
    | none => none
    | some p =>
      match decTime (jlookup (gs "timestamp") fs) with
      | none => none
      | some t =>
        match decStr (jlookup (gs "diff") fs) with
        | none => none
        | some d => some ⟨p, t, d⟩
  | _ => none


/-- Unmarshaling one command object. -/
def decodeCommand : Json → Option Command
  | .null => some ⟨[], 0⟩
  | .obj fs =>
    match decStr (jlookup (gs "raw") fs) with
    | none => none
    | some r =>
      match decTime (jlookup (gs "timestamp") fs) with
      | none => none
      | some t => some ⟨r, t⟩
  | _ => none


/-- Unmarshaling into a `[]string` field. -/
def decStrList : Option Json → Option (List GoStr)
  | none => some []
  | some .null => some []
  | some (.arr xs) => optMapList decStr (xs.map (fun j => some j))
  | some _ => none


/-- Unmarshaling a `GitInfo` object. -/
def decodeGitInfo : Json → Option GitInfo
  | .obj fs =>
    match decStr (jlookup (gs "branch") fs) with
    | none => none
    | some br =>
      match decStr (jlookup (gs "head_commit") fs) with
      | none => none
      | some hc =>
        match decStr (jlookup (gs "diff") fs) with
        | none => none
        | some df =>
          match decStr (jlookup (gs "staged_diff") fs) with
          | none => none
          | some sd =>
            match decStrList (jlookup (gs "recent_log") fs) with
            | none => none
            | some rl => some ⟨br, hc, df, sd, rl⟩
  | _ => none


/-- Unmarshaling into the `*GitInfo` field: absent or `null` leaves nil. -/
def decGit : Option Json → Option (Option GitInfo)
  | none => some none
  | some .null => some none
  | some j => (decodeGitInfo j).map (fun g => some g)


/-- Unmarshaling a `SessionMeta` object (absent or `null` leaves the zero
value, as for any struct field). -/
def decSessionMeta : Option Json → Option SessionMeta
  | none => some ⟨[], 0, 0, [], [], []⟩
  | some .null => some ⟨[], 0, 0, [], [], []⟩
  | some (.obj fs) =>
    match decStr (jlookup (gs "id") fs) with
    | none => none
    | some i =>
      match decTime (jlookup (gs "start_time") fs) with
      | none => none
      | some st =>
        match decTime (jlookup (gs "stop_time") fs) with
        | none => none
        | some sp =>
          match decStr (jlookup (gs "work_dir") fs) with
          | none => none
          | some wd =>
            match decStr (jlookup (gs "duration") fs) with
            | none => none
            | some du =>
              match decStr (jlookup (gs "author") fs) with
              | none => none
              | some au => some ⟨i, st, sp, wd, du, au⟩
  | some _ => none


/-- Unmarshaling into a `[]T` field of struct elements. -/
def decList (g : Json → Option α) : Option Json → Option (List α)
  | none => some []
  | some .null => some []
  | some (.arr xs) => optMapList g xs
  | some _ => none


/-- `json.Unmarshal` of a `ContextBundle` from its JSON value: top-level
`null` leaves the zero value; a non-object is a type error; fields are
matched by tag name. -/
def decodeBundle : Json → Option ContextBundle
  | .null => some ⟨⟨[], 0, 0, [], [], []⟩, [], [], none, [], []⟩
  | .obj fs =>
    match decSessionMeta (jlookup (gs "session") fs) with
    | none => none
    | some sm =>
      match decList decodeAnnotation (jlookup (gs "annotations") fs) with
      | none => none
      | some ann =>
        match decList decodeFileEdit (jlookup (gs "file_edits") fs) with
        | none => none
        | some fe =>
          match decGit (jlookup (gs "git") fs) with
          | none => none
          | some g =>
            match decList decodeCommand (jlookup (gs "commands") fs) with
            | none => none
            | some cm =>
              match decStrList (jlookup (gs "editor_tabs") fs) with
              | none => none
              | some et => some ⟨sm, ann, fe, g, cm, et⟩
  | _ => none


/-- UTF-8 encoding of one character, as Go produces when converting a
string to bytes. -/
def utf8EncodeChar (c : Char) : List Nat :=
  let n := c.toNat
  if n < 128 then [n]
  else if n < 2048 then [192 + n / 64, 128 + n % 64]
  else if n < 65536 then
    [224 + n / 4096, 128 + (n / 64) % 64, 128 + n % 64]
  else
    [240 + n / 262144, 128 + (n / 4096) % 64, 128 + (n / 64) % 64, 128 + n % 64]


/-- UTF-8 encoding of a whole string (`[]byte(s)` in Go). -/
def utf8Encode (s : GoStr) : List Nat := (s.map utf8EncodeChar).flatten


/-- Whether a scalar value may be represented by a `Char` (not a surrogate,
below 0x110000). -/
def validScalar (n : Nat) : Bool :=
  decide (n < 55296) || (decide (57344 ≤ n) && decide (n < 1114112))


/-- UTF-8 decoding of a byte sequence, rejecting truncated sequences,
stray continuation bytes, overlong encodings and invalid scalar values.
The fuel argument only bounds recursion; at least one byte is consumed per
step, so `length + 1` always suffices. -/
def utf8DecodeF : Nat → List Nat → Option GoStr
  | 0, _ => none
  | _ + 1, [] => some []
  | fuel + 1, b :: bs =>
    if b < 128 then (utf8DecodeF fuel bs).map (fun s => Char.ofNat b :: s)
    else if b < 192 then none
    else if b < 224 then
      match bs with
      | b2 :: bs2 =>
        if 128 ≤ b2 ∧ b2 < 192 then
          if 128 ≤ (b - 192) * 64 + (b2 - 128) then
            (utf8DecodeF fuel bs2).map
              (fun s => Char.ofNat ((b - 192) * 64 + (b2 - 128)) :: s)
          else none
        else none
      | [] => none
    else if b < 240 then
      match bs with
      | b2 :: b3 :: bs2 =>
        if (128 ≤ b2 ∧ b2 < 192) ∧ (128 ≤ b3 ∧ b3 < 192) then
          if 2048 ≤ ((b - 224) * 64 + (b2 - 128)) * 64 + (b3 - 128)
              ∧ validScalar (((b - 224) * 64 + (b2 - 128)) * 64 + (b3 - 128)) then
            (utf8DecodeF fuel bs2).map
              (fun s => Char.ofNat (((b - 224) * 64 + (b2 - 128)) * 64 + (b3 - 128)) :: s)
          else none
        else none
      | _ => none
    else if b < 248 then
      match bs with
      | b2 :: b3 :: b4 :: bs2 =>
        if (128 ≤ b2 ∧ b2 < 192) ∧ (128 ≤ b3 ∧ b3 < 192) ∧ (128 ≤ b4 ∧ b4 < 192) then
          if 65536 ≤ (((b - 240) * 64 + (b2 - 128)) * 64 + (b3 - 128)) * 64 + (b4 - 128)
              ∧ (((b - 240) * 64 + (b2 - 128)) * 64 + (b3 - 128)) * 64 + (b4 - 128)
                < 1114112 then
            (utf8DecodeF fuel bs2).map
              (fun s => Char.ofNat
                ((((b - 240) * 64 + (b2 - 128)) * 64 + (b3 - 128)) * 64 + (b4 - 128)) :: s)
          else none
        else none
      | _ => none
    else none


def utf8Decode (bs : List Nat) : Option GoStr := utf8DecodeF (bs.length + 1) bs


/-- The standard base64 alphabet (`base64.StdEncoding`). -/
def b64Char (v : Nat) : Char :=
  if v < 26 then Char.ofNat (65 + v)
  else if v < 52 then Char.ofNat (97 + v - 26)
  else if v < 62 then Char.ofNat (48 + v - 52)
  else if v = 62 then '+'
  else '/'


/-- Inverse of the standard base64 alphabet. -/
def b64DecodeChar (c : Char) : Option Nat :=
  if 65 ≤ c.toNat ∧ c.toNat ≤ 90 then some (c.toNat - 65)
  else if 97 ≤ c.toNat ∧ c.toNat ≤ 122 then some (c.toNat - 97 + 26)
  else if 48 ≤ c.toNat ∧ c.toNat ≤ 57 then some (c.toNat - 48 + 52)
  else if c = '+' then some 62
  else if c = '/' then some 63
  else none


/-- `base64.StdEncoding.EncodeToString`: bytes in groups of three, with
`=` padding for a short final group. -/
def b64Encode : List Nat → GoStr
  | [] => []
  | [b1] => [b64Char (b1 / 4), b64Char ((b1 % 4) * 16), '=', '=']
  | [b1, b2] =>
    [b64Char (b1 / 4), b64Char ((b1 % 4) * 16 + b2 / 16),
     b64Char ((b2 % 16) * 4), '=']
  | b1 :: b2 :: b3 :: bs =>
    b64Char (b1 / 4) :: b64Char ((b1 % 4) * 16 + b2 / 16)
      :: b64Char ((b2 % 16) * 4 + b3 / 64) :: b64Char (b3 % 64) :: b64Encode bs


/-- `base64.StdEncoding.DecodeString`: four characters at a time, `=`
padding only at the very end, error on stray characters or bad padding
(trailing padding bits are not checked, as in Go's non-strict decoder). -/
def b64Decode : GoStr → Option (List Nat)
  | [] => some []
  | c1 :: c2 :: c3 :: c4 :: rest =>
    match b64DecodeChar c1, b64DecodeChar c2 with
    | some v1, some v2 =>
      if c3 = '=' then
        if c4 = '=' ∧ rest = [] then some [v1 * 4 + v2 / 16] else none
      else
        match b64DecodeChar c3 with
        | some v3 =>
          if c4 = '=' then
            if rest = [] then some [v1 * 4 + v2 / 16, (v2 % 16) * 16 + v3 / 4]
            else none
          else
            match b64DecodeChar c4 with
            | some v4 =>
              (b64Decode rest).map (fun bs =>
                (v1 * 4 + v2 / 16) :: ((v2 % 16) * 16 + v3 / 4)
                  :: ((v3 % 4) * 64 + v4) :: bs)
            | none => none
        | none => none
    | _, _ => none
  | _ => none


/-- `strings.HasSuffix`. -/
def goHasSuffix (s suf : GoStr) : Bool := suf.isSuffixOf s


/-- The time format `"2006-01-02 15:04:05"` / `"2006-01-02 15:04:05 MST"`
used in the human-readable sections; like RFC 3339 it is abstracted as the
injective decimal rendering of the instant (it is display-only and never
parsed back). -/
def goFormatDisplay (t : Time) : GoStr := intToDec t


/-- The `## Annotations` section body lines. -/
def mdAnnotations : List  Annotation → GoStr
  | [] => []
  | a :: rest =>
    gs "- [" ++ goFormatDisplay a.timestamp ++ gs "] ("
      ++ (if a.isSummary then gs "summary" else gs "note")
      ++ gs ") " ++ a.message ++ gs "\n" ++ mdAnnotations rest


/-- The `## File Edits` table rows. -/
def mdFileEdits : List FileEdit → GoStr
  | [] => []
  | f :: rest =>
    gs "| " ++ f.path ++ gs " | " ++ goFormatDisplay f.timestamp ++ gs " |\n"
      ++ mdFileEdits rest


/-- A fenced diff block, with a newline supplied when the diff lacks one. -/
def mdDiffBlock (d : GoStr) (emptyMsg : GoStr) : GoStr :=
  if d = [] then emptyMsg
  else gs "```diff\n" ++ d ++ (if goHasSuffix d (gs "\n") then [] else gs "\n")
    ++ gs "```\n"


/-- The `### Recent Commits` lines. -/
def mdLogLines : List GoStr → GoStr
  | [] => []
  | l :: rest => gs "- " ++ l ++ gs "\n" ++ mdLogLines rest


/-- The numbered `## Terminal Commands` lines (`%d. `...``). -/
def mdCommands : Nat → List Command → GoStr
  | _, [] => []
  | i, c :: rest =>
    natToDec (i + 1) ++ gs ". `" ++ c.raw ++ gs "`\n" ++ mdCommands (i + 1) rest


/-- The `## Editor Tabs` lines. -/
def mdTabs : List GoStr → GoStr
  | [] => []
  | t :: rest => gs "- " ++ t ++ gs "\n" ++ mdTabs rest


/-- The human-readable body of the Markdown rendering (everything after the
sentinel and payload lines of `MarkdownRenderer.Render`). -/
def markdownBody (b : ContextBundle) : GoStr :=
  gs "# Handoff — " ++ b.session.workDir ++ gs " — "
    ++ goFormatDisplay b.session.stopTime ++ gs "\n\n"
  ++ gs "## Summary\n\n"
  ++ gs "- Duration: " ++ b.session.duration ++ gs "\n"
  ++ (if b.session.author ≠ [] then gs "- Author: " ++ b.session.author ++ gs "\n"
      else [])
  ++ (match b.git with
      | some g => gs "- Branch: " ++ g.branch ++ gs "\n"
          ++ gs "- Head commit: " ++ g.headCommit ++ gs "\n"
      | none => [])
  ++ gs "\n"
  ++ gs "## Annotations\n\n"
  ++ (if b.annotations = [] then gs "_No annotations._\n"
      else mdAnnotations b.annotations)
  ++ gs "\n"
  ++ gs "## File Edits\n\n"
  ++ (if b.fileEdits = [] then gs "_No file edits recorded._\n"
      else gs "| Path | Last Modified |\n|------|---------------|\n"
        ++ mdFileEdits b.fileEdits)
  ++ gs "\n"
  ++ gs "## Git Changes\n\n"
  ++ (match b.git with
      | none => gs "_Not a git repository or git data unavailable._\n"
      | some g =>
        gs "### Unstaged\n\n"
        ++ mdDiffBlock g.diff (gs "_No unstaged changes._\n")
        ++ gs "\n"
        ++ gs "### Staged\n\n"
        ++ mdDiffBlock g.stagedDiff (gs "_No staged changes._\n")
        ++ gs "\n"
        ++ gs "### Recent Commits\n\n"
        ++ (if g.recentLog = [] then gs "_No recent commits._\n"
            else mdLogLines g.recentLog))
  ++ gs "\n"
  ++ gs "## Terminal Commands\n\n"
  ++ (if b.commands = [] then gs "_No terminal commands recorded._\n"
      else mdCommands 0 b.commands)
  ++ gs "\n"
  ++ gs "## Editor Tabs\n\n"
  ++ (if b.editorTabs = [] then gs "_No editor tabs recorded._\n"
      else mdTabs b.editorTabs)
  ++ gs "\n"


/-- `json.Marshal` of a `ContextBundle`, as bytes. -/
def goMarshalBundle (b : ContextBundle) : List Nat :=
  utf8Encode (printJson (bundleJson b))


/-- `json.MarshalIndent(b, "", "  ")` of a `ContextBundle`, as bytes:
what `JSONRenderer.Render` produces. -/
def jsonRender (b : ContextBundle) : List Nat :=
  utf8Encode (printJsonInd (bundleJson b))


/-- `MarkdownRenderer.Render`: sentinel line, embedded base64 payload line,
then the human-readable sections. -/
def markdownRender (b : ContextBundle) : GoStr :=
  gs "<!-- handoff-bundle-version: 1 -->\n"
  ++ gs "<!-- handoff-data: " ++ b64Encode (goMarshalBundle b) ++ gs " -->\n\n"
  ++ markdownBody b


/-- `json.Unmarshal` of bytes into a `ContextBundle`: UTF-8 interpretation,
JSON parsing, then field decoding. -/
def goUnmarshalBundle (bytes : List Nat) : Option ContextBundle :=
  match utf8Decode bytes with
  | none => none
  | some s =>
    match jsonUnmarshal s with
    | none => none
    | some j => decodeBundle j


/-- `JSONParser.Parse`. -/
def jsonParse (bytes : List Nat) : Except GoStr ContextBundle :=
  match goUnmarshalBundle bytes with
  | none => .error (gs "failed to parse JSON bundle")
  | some b => .ok b


/-- `MarkdownParser.Parse`: require the version sentinel, locate the data
prefix, take the payload up to the closing marker, base64-decode it and
unmarshal the embedded JSON. -/
def markdownParse (content : GoStr) : Except GoStr ContextBundle :=
  if ¬ goContains content (gs "<!-- handoff-bundle-version: 1 -->") then
    .error (gs "not a valid handoff bundle: missing version sentinel")
  else
    match goIndex content (gs "<!-- handoff-data: ") with
    | none => .error (gs "not a valid handoff bundle: missing data payload")
    | some start0 =>
      match goIndex (content.drop (start0 + (gs "<!-- handoff-data: ").length))
          (gs " -->") with
      | none => .error (gs "not a valid handoff bundle: malformed data payload")
      | some e =>
        match b64Decode
            ((content.drop (start0 + (gs "<!-- handoff-data: ").length)).take e) with
        | none => .error (gs "not a valid handoff bundle: corrupted base64 payload")
        | some jsonBytes =>
          match goUnmarshalBundle jsonBytes with
          | none =>
            .error (gs "not a valid handoff bundle: failed to parse embedded JSON")
          | some b => .ok b


/-- The payload-extraction steps of `MarkdownParser.Parse`: locate the data
prefix, then the closing marker, and slice the base64 text between them. -/
def extractPayload (content : GoStr) : Option GoStr :=
  match goIndex content (gs "<!-- handoff-data: ") with
  | none => none
  | some start0 =>
    match goIndex (content.drop (start0 + (gs "<!-- handoff-data: ").length))
        (gs " -->") with
    | none => none
    | some e =>
      some ((content.drop (start0 + (gs "<!-- handoff-data: ").length)).take e)


/-- What `MarkdownParser.Parse` does with the extracted payload text. -/
def payloadParse (p : GoStr) : Except GoStr ContextBundle :=
  match b64Decode p with
  | none => .error (gs "not a valid handoff bundle: corrupted base64 payload")
  | some jsonBytes =>
    match goUnmarshalBundle jsonBytes with
    | none => .error (gs "not a valid handoff bundle: failed to parse embedded JSON")
    | some b => .ok b


/-- A small fully-populated bundle used to witness the round-trip claims. -/
def sampleBundle : ContextBundle :=
  { session := ⟨gs "s1", Time.unix 100, Time.unix 200, gs "/w", gs "1m40s", gs "al"⟩,
    annotations := [⟨Time.unix 150, gs "note<1>", false⟩],
    fileEdits := [⟨gs "a.go", Time.unix 160, gs "+x"⟩],
    git := some ⟨gs "main", gs "abc123", gs "d", gs "", [gs "abc fix"]⟩,
    commands := [⟨gs "go test", Time.unix 170⟩],
    editorTabs := [gs "/w/a.go"] }


/-! ## Supporting lemmas -/

theorem dropWhile_eq_self_of (p : Char → Bool) (l : GoStr)
    (h : ∀ c ∈ l, p c = false) : l.dropWhile p = l := by
  cases l with
  | nil => rfl
  | cons a t => simp [List.dropWhile, h a (by simp)]

theorem goTrimSpace_eq_self (l : GoStr) (h : ∀ c ∈ l, goIsSpace c = false) :
    goTrimSpace l = l := by
  unfold goTrimSpace
  rw [dropWhile_eq_self_of _ _ h,
    dropWhile_eq_self_of _ _ (fun c hc => h c (List.mem_reverse.mp hc)),
    List.reverse_reverse]

theorem decDigit_digitChar (d : Nat) (h : d < 10) :
    decDigit? (digitChar d) = some d := by
  interval_cases d <;> decide

theorem digitChar_isDigit (d : Nat) : isDecDigit (digitChar d) = true := by
  rcases Nat.lt_or_ge d 9 with h | h
  · interval_cases d <;> decide
  · have : digitChar d = '9' := by
      unfold digitChar
      split <;> first | omega | rfl
    rw [this]
    decide

theorem isDecDigit_bounds {c : Char} (h : isDecDigit c = true) :
    48 ≤ c.toNat ∧ c.toNat ≤ 57 := by
  simpa [isDecDigit] using h

theorem ne_of_toNat_ne {c d : Char} (h : c.toNat ≠ d.toNat) : c ≠ d :=
  fun he => h (he ▸ rfl)

theorem natToDecAux_all_digits (fuel : Nat) :
    ∀ n, ∀ c ∈ natToDecAux fuel n, isDecDigit c = true := by
  induction fuel with
  | zero => intro n c hc; simp [natToDecAux] at hc
  | succ fuel ih =>
    intro n c hc
    unfold natToDecAux at hc
    split at hc
    · simp at hc
    · rcases List.mem_append.mp hc with h | h
      · exact ih _ c h
      · simp only [List.mem_singleton] at h
        subst h
        exact digitChar_isDigit _

theorem natToDec_all_digits (n : Nat) : ∀ c ∈ natToDec n, isDecDigit c = true := by
  intro c hc
  unfold natToDec at hc
  split at hc
  · simp only [List.mem_singleton] at hc
    subst hc
    decide
  · exact natToDecAux_all_digits n n c hc

theorem natToDecAux_foldlM (fuel : Nat) :
    ∀ n acc, n ≤ fuel →
      List.foldlM (fun acc c => (decDigit? c).map (fun d => acc * 10 + d)) acc
          (natToDecAux fuel n)
        = some (acc * 10 ^ (natToDecAux fuel n).length + n) := by
  induction fuel with
  | zero =>
    intro n acc h
    have : n = 0 := by omega
    subst this
    simp [natToDecAux]
  | succ fuel ih =>
    intro n acc h
    by_cases h0 : n = 0
    · subst h0
      simp [natToDecAux]
    · rw [natToDecAux, if_neg h0]
      rw [List.foldlM_append]
      have hle : n / 10 ≤ fuel := by omega
      rw [ih (n / 10) acc hle]
      simp only [Option.bind_eq_bind, Option.some_bind, List.foldlM_cons,
        List.foldlM_nil]
      rw [decDigit_digitChar (n % 10) (Nat.mod_lt _ (by omega))]
      simp only [Option.map_some', Option.some_bind, List.length_append,
        List.length_singleton]
      congr 1
      have : 10 ^ ((natToDecAux fuel (n / 10)).length + 1) =
          10 ^ (natToDecAux fuel (n / 10)).length * 10 := by ring
      rw [this]
      have hnm : n % 10 + 10 * (n / 10) = n := Nat.mod_add_div n 10
      ring_nf
      omega

theorem natToDecAux_ne_nil (fuel n : Nat) (h1 : n ≠ 0) (h2 : n ≤ fuel) :
    natToDecAux fuel n ≠ [] := by
  cases fuel with
  | zero => omega
  | succ f =>
    rw [natToDecAux, if_neg h1]
    simp

theorem natToDec_ne_nil (n : Nat) : natToDec n ≠ [] := by
  unfold natToDec
  split
  · simp
  · exact natToDecAux_ne_nil n n (by assumption) (le_refl n)

theorem parseNatDec_natToDec (n : Nat) : parseNatDec (natToDec n) = some n := by
  unfold parseNatDec
  rw [if_neg (natToDec_ne_nil n)]
  unfold natToDec
  by_cases h0 : n = 0
  · subst h0
    decide
  · rw [if_neg h0]
    have := natToDecAux_foldlM n n 0 (le_refl n)
    rw [this]
    simp

theorem isDigit_ne_plus {c : Char} (h : isDecDigit c = true) : ¬ c = '+' := by
  intro he
  subst he
  exact absurd h (by decide)

theorem isDigit_ne_minus {c : Char} (h : isDecDigit c = true) : ¬ c = '-' := by
  intro he
  subst he
  exact absurd h (by decide)

theorem goParseInt_intToDec (i : Int) : goParseInt (intToDec i) = some i := by
  unfold intToDec
  split
  · rename_i hneg
    rw [goParseInt]
    rw [if_neg (by decide), if_pos rfl]
    rw [parseNatDec_natToDec]
    simp only [Option.map_some']
    congr 1
    simp only [Int.ofNat_eq_coe]
    omega
  · rename_i hpos
    obtain ⟨c, rest, hcr⟩ := List.exists_cons_of_ne_nil (natToDec_ne_nil i.natAbs)
    rw [hcr, goParseInt]
    have hdig : isDecDigit c = true :=
      natToDec_all_digits i.natAbs c (by rw [hcr]; simp)
    rw [if_neg (isDigit_ne_plus hdig), if_neg (isDigit_ne_minus hdig), ← hcr,
      parseNatDec_natToDec]
    simp only [Option.map_some']
    congr 1
    simp only [Int.ofNat_eq_coe]
    omega

theorem isPrefixOf_append_self (p r : GoStr) : p.isPrefixOf (p ++ r) = true := by
  induction p with
  | nil => simp [List.isPrefixOf]
  | cons a t ih => simp [List.isPrefixOf, ih]

theorem isPrefixOf_cons_ne {a b : Char} (as bs : GoStr) (h : a ≠ b) :
    (a :: as).isPrefixOf (b :: bs) = false := by
  simp [List.isPrefixOf, h]

theorem goIndex_of_isPrefixOf {s pat : GoStr} (h : pat.isPrefixOf s = true) :
    goIndex s pat = some 0 := by
  rw [goIndex.eq_def, h]
  simp

theorem goIndex_cons_of_not {s pat : GoStr} {p : Char}
    (h : pat.isPrefixOf (p :: s) = false) :
    goIndex (p :: s) pat = (goIndex s pat).map (· + 1) := by
  rw [goIndex.eq_def, h]
  simp

theorem goIndex_skip (pat : GoStr) (c0 : Char) (tail : GoStr)
    (hpat : pat = c0 :: tail) (P X : GoStr) (h : ∀ c ∈ P, c ≠ c0) :
    goIndex (P ++ X) pat = (goIndex X pat).map (· + P.length) := by
  induction P with
  | nil =>
    rcases hx : goIndex X pat with _ | v <;> simp [hx]
  | cons p t ih =>
    have hne : pat.isPrefixOf (p :: (t ++ X)) = false := by
      rw [hpat]
      exact isPrefixOf_cons_ne _ _ (fun he => (h p (by simp)) he.symm)
    rw [List.cons_append, goIndex_cons_of_not hne,
      ih (fun c hc => h c (List.mem_cons_of_mem _ hc))]
    rcases hx : goIndex X pat with _ | v <;> simp [hx]
    omega

theorem intToDec_ne_nil (i : Int) : intToDec i ≠ [] := by
  unfold intToDec
  split
  · simp
  · exact natToDec_ne_nil _

theorem natToDec_ne_char (n : Nat) (d : Char)
    (hd : d.toNat < 48 ∨ 57 < d.toNat) : ∀ c ∈ natToDec n, c ≠ d :=
  fun c hc => ne_of_toNat_ne (by
    have := isDecDigit_bounds (natToDec_all_digits n c hc)
    omega)

theorem intToDec_ne_char (i : Int) (d : Char)
    (hd1 : d.toNat < 48 ∨ 57 < d.toNat) (hd2 : d ≠ '-') :
    ∀ c ∈ intToDec i, c ≠ d := by
  intro c hc
  unfold intToDec at hc
  split at hc
  · rcases List.mem_cons.mp hc with rfl | hc2
    · exact fun he => hd2 he.symm
    · exact natToDec_ne_char _ _ hd1 c hc2
  · exact natToDec_ne_char _ _ hd1 c hc

theorem goIsSpace_false_of_digit_bounds {c : Char}
    (h : 48 ≤ c.toNat ∧ c.toNat ≤ 57) : goIsSpace c = false := by
  have e1 : (' ').toNat = 32 := rfl
  have e2 : ('\t').toNat = 9 := rfl
  have e3 : ('\n').toNat = 10 := rfl
  have e4 : ('\r').toNat = 13 := rfl
  have h1 : (c == ' ') = false :=
    beq_eq_false_iff_ne.mpr (ne_of_toNat_ne (by omega))
  have h2 : (c == '\t') = false :=
    beq_eq_false_iff_ne.mpr (ne_of_toNat_ne (by omega))
  have h3 : (c == '\n') = false :=
    beq_eq_false_iff_ne.mpr (ne_of_toNat_ne (by omega))
  have h4 : (c == '\r') = false :=
    beq_eq_false_iff_ne.mpr (ne_of_toNat_ne (by omega))
  have h5 : (c.toNat == 11) = false := beq_eq_false_iff_ne.mpr (by omega)
  have h6 : (c.toNat == 12) = false := beq_eq_false_iff_ne.mpr (by omega)
  simp [goIsSpace, h1, h2, h3, h4, h5, h6]

theorem goTrimSpace_intToDec (i : Int) :
    goTrimSpace (intToDec i) = intToDec i := by
  apply goTrimSpace_eq_self
  intro c hc
  unfold intToDec at hc
  split at hc
  · rcases List.mem_cons.mp hc with rfl | hc2
    · decide
    · exact goIsSpace_false_of_digit_bounds
        (isDecDigit_bounds (natToDec_all_digits _ c hc2))
  · exact goIsSpace_false_of_digit_bounds
      (isDecDigit_bounds (natToDec_all_digits _ c hc))

theorem parseBash_encode (entries : List (GoStr × Option Int))
    (h : ∀ e ∈ entries, e.1 ≠ [] ∧ (gs "#").isPrefixOf e.1 = false) :
    parseBashHistory (encodeBashHistory entries) = bashExpected entries := by
  unfold parseBashHistory
  induction entries with
  | nil => rfl
  | cons e rest ih =>
    obtain ⟨cmd, ts⟩ := e
    obtain ⟨hne, hpre⟩ := h (cmd, ts) (by simp)
    dsimp only at hne hpre
    have ihh := ih (fun x hx => h x (List.mem_cons_of_mem _ hx))
    cases ts with
    | some epoch =>
      have henc : encodeBashHistory ((cmd, some epoch) :: rest) =
          ('#' :: intToDec epoch) :: cmd :: encodeBashHistory rest := by
        simp [encodeBashHistory]
      rw [henc, parseBashLines]
      rw [if_pos (show (gs "#").isPrefixOf ('#' :: intToDec epoch) = true from
        isPrefixOf_append_self ['#'] (intToDec epoch))]
      have hdrop : ('#' :: intToDec epoch).drop 1 = intToDec epoch := rfl
      rw [hdrop, goParseInt_intToDec]
      dsimp only
      rw [parseBashLines, if_neg (by simp [hpre]), if_neg hne, ihh]
      simp [bashExpected]
    | none =>
      have henc : encodeBashHistory ((cmd, none) :: rest) =
          cmd :: encodeBashHistory rest := by
        simp [encodeBashHistory]
      rw [henc, parseBashLines, if_neg (by simp [hpre]), if_neg hne, ihh]
      simp [bashExpected]

theorem parseZshExtended_encode (cmd : GoStr) (epoch : Int) (elapsed : Nat) :
    parseZshExtended
        (gs ": " ++ intToDec epoch ++ [':'] ++ natToDec elapsed ++ [';'] ++ cmd)
      = some (Command.mk cmd (Time.unix epoch)) := by
  have hD : ∀ c ∈ intToDec epoch, c ≠ ';' :=
    intToDec_ne_char _ ';' (by decide) (by decide)
  have hD2 : ∀ c ∈ intToDec epoch, c ≠ ':' :=
    intToDec_ne_char _ ':' (by decide) (by decide)
  have hE : ∀ c ∈ natToDec elapsed, c ≠ ';' :=
    natToDec_ne_char _ ';' (by decide)
  have hL : gs ": " ++ intToDec epoch ++ [':'] ++ natToDec elapsed ++ [';'] ++ cmd
      = gs ": " ++ (intToDec epoch ++ ':' :: (natToDec elapsed ++ ';' :: cmd)) := by
    simp only [List.append_assoc, List.cons_append, List.nil_append]
  rw [hL]
  unfold parseZshExtended
  rw [if_pos (isPrefixOf_append_self _ _)]
  have h2 : (gs ": " ++ (intToDec epoch ++ ':' :: (natToDec elapsed ++ ';' :: cmd))).drop 2
      = intToDec epoch ++ ':' :: (natToDec elapsed ++ ';' :: cmd) :=
    List.drop_left [':', ' '] _
  rw [h2]
  have hsemi : goIndex (intToDec epoch ++ ':' :: (natToDec elapsed ++ ';' :: cmd)) (gs ";")
      = some ((natToDec elapsed).length + 1 + (intToDec epoch).length) := by
    rw [goIndex_skip (gs ";") ';' [] rfl _ _ hD,
      goIndex_cons_of_not (show (gs ";").isPrefixOf
        (':' :: (natToDec elapsed ++ ';' :: cmd)) = false from
        isPrefixOf_cons_ne [] _ (by decide)),
      goIndex_skip (gs ";") ';' [] rfl _ _ hE,
      goIndex_of_isPrefixOf (show (gs ";").isPrefixOf (';' :: cmd) = true from
        isPrefixOf_append_self [';'] cmd)]
    simp
  rw [hsemi]
  dsimp only
  rw [if_pos (by omega)]
  have htake : (intToDec epoch ++ ':' :: (natToDec elapsed ++ ';' :: cmd)).take
      ((natToDec elapsed).length + 1 + (intToDec epoch).length)
      = intToDec epoch ++ ':' :: natToDec elapsed := by
    have hgroup : intToDec epoch ++ ':' :: (natToDec elapsed ++ ';' :: cmd)
        = (intToDec epoch ++ ':' :: natToDec elapsed) ++ ';' :: cmd := by
      simp
    rw [hgroup, show (natToDec elapsed).length + 1 + (intToDec epoch).length
      = (intToDec epoch ++ ':' :: natToDec elapsed).length from by simp; omega,
      List.take_left]
  rw [htake]
  have hcolon : goIndex (intToDec epoch ++ ':' :: natToDec elapsed) (gs ":")
      = some (intToDec epoch).length := by
    rw [goIndex_skip (gs ":") ':' [] rfl _ _ hD2,
      goIndex_of_isPrefixOf (show (gs ":").isPrefixOf
        (':' :: natToDec elapsed) = true from
        isPrefixOf_append_self [':'] (natToDec elapsed))]
    simp
  rw [hcolon]
  dsimp only
  rw [if_pos (List.length_pos.mpr (intToDec_ne_nil epoch))]
  rw [show (intToDec epoch ++ ':' :: natToDec elapsed).take (intToDec epoch).length
    = intToDec epoch from List.take_left _ _, goParseInt_intToDec]
  dsimp only
  have hdropC : (intToDec epoch ++ ':' :: (natToDec elapsed ++ ';' :: cmd)).drop
      ((natToDec elapsed).length + 1 + (intToDec epoch).length + 1) = cmd := by
    have hgroup2 : intToDec epoch ++ ':' :: (natToDec elapsed ++ ';' :: cmd)
        = ((intToDec epoch ++ ':' :: natToDec elapsed) ++ [';']) ++ cmd := by
      simp
    rw [hgroup2, show (natToDec elapsed).length + 1 + (intToDec epoch).length + 1
      = ((intToDec epoch ++ ':' :: natToDec elapsed) ++ [';']).length from by
        simp; omega,
      List.drop_left]
  rw [hdropC]

theorem parseZsh_encode (entries : List (GoStr × Int × Nat)) :
    parseZshHistory (encodeZshHistory entries) = zshExpected entries := by
  induction entries with
  | nil => rfl
  | cons e rest ih =>
    obtain ⟨cmd, epoch, elapsed⟩ := e
    have henc : encodeZshHistory ((cmd, epoch, elapsed) :: rest)
        = (gs ": " ++ intToDec epoch ++ [':'] ++ natToDec elapsed ++ [';'] ++ cmd)
          :: encodeZshHistory rest := by
      simp [encodeZshHistory]
    have hne : ¬ (gs ": " ++ intToDec epoch ++ [':'] ++ natToDec elapsed
        ++ [';'] ++ cmd = []) := by
      have hx : gs ": " = [':', ' '] := rfl
      simp [hx]
    rw [henc, parseZshHistory, if_neg hne, parseZshExtended_encode]
    dsimp only
    rw [ih]
    simp [zshExpected]

theorem parseFishLines_encode (entries : List (GoStr × Int))
    (h : ∀ e ∈ entries, e.1 ≠ []) :
    ∀ (cur : GoStr) (t : Time), cur ≠ [] →
      parseFishLines (encodeFishHistory entries) cur t true
        = Command.mk cur t :: fishExpected entries := by
  induction entries with
  | nil =>
    intro cur t hcur
    rw [show encodeFishHistory [] = [] from rfl, parseFishLines,
      if_pos (⟨rfl, hcur⟩ : (true : Bool) = true ∧ cur ≠ [])]
    rfl
  | cons e rest ih =>
    intro cur t hcur
    obtain ⟨cmd, epoch⟩ := e
    have hcmd : cmd ≠ [] := h (cmd, epoch) (by simp)
    have henc : encodeFishHistory ((cmd, epoch) :: rest)
        = (gs "- cmd: " ++ cmd) :: (gs "  when: " ++ intToDec epoch)
          :: encodeFishHistory rest := by
      simp [encodeFishHistory]
    rw [henc, parseFishLines, if_pos (isPrefixOf_append_self _ _),
      if_pos (⟨rfl, hcur⟩ : (true : Bool) = true ∧ cur ≠ []),
      show (gs "- cmd: " ++ cmd).drop 7 = cmd from
        List.drop_left ['-', ' ', 'c', 'm', 'd', ':', ' '] cmd,
      parseFishLines,
      if_neg (by
        rw [show (gs "- cmd: ").isPrefixOf (gs "  when: " ++ intToDec epoch)
          = false from isPrefixOf_cons_ne _ _ (by decide)]
        simp),
      if_pos (⟨rfl, isPrefixOf_append_self _ _⟩ :
        (true : Bool) = true ∧ (gs "  when: ").isPrefixOf
          (gs "  when: " ++ intToDec epoch) = true),
      show (gs "  when: " ++ intToDec epoch).drop 8 = intToDec epoch from
        List.drop_left [' ', ' ', 'w', 'h', 'e', 'n', ':', ' '] _,
      goTrimSpace_intToDec, goParseInt_intToDec]
    dsimp only
    rw [ih (fun x hx => h x (List.mem_cons_of_mem _ hx)) cmd (Time.unix epoch) hcmd]
    simp [fishExpected]

theorem parseFish_encode (entries : List (GoStr × Int))
    (h : ∀ e ∈ entries, e.1 ≠ []) :
    parseFishHistory (encodeFishHistory entries) = fishExpected entries := by
  unfold parseFishHistory
  cases entries with
  | nil => rfl
  | cons e rest =>
    obtain ⟨cmd, epoch⟩ := e
    have hcmd : cmd ≠ [] := h (cmd, epoch) (by simp)
    have henc : encodeFishHistory ((cmd, epoch) :: rest)
        = (gs "- cmd: " ++ cmd) :: (gs "  when: " ++ intToDec epoch)
          :: encodeFishHistory rest := by
      simp [encodeFishHistory]
    rw [henc, parseFishLines, if_pos (isPrefixOf_append_self _ _),
      if_neg (by simp : ¬ ((false : Bool) = true ∧ ([] : GoStr) ≠ [])),
      show (gs "- cmd: " ++ cmd).drop 7 = cmd from
        List.drop_left ['-', ' ', 'c', 'm', 'd', ':', ' '] cmd,
      parseFishLines,
      if_neg (by
        rw [show (gs "- cmd: ").isPrefixOf (gs "  when: " ++ intToDec epoch)
          = false from isPrefixOf_cons_ne _ _ (by decide)]
        simp),
      if_pos (⟨rfl, isPrefixOf_append_self _ _⟩ :
        (true : Bool) = true ∧ (gs "  when: ").isPrefixOf
          (gs "  when: " ++ intToDec epoch) = true),
      show (gs "  when: " ++ intToDec epoch).drop 8 = intToDec epoch from
        List.drop_left [' ', ' ', 'w', 'h', 'e', 'n', ':', ' '] _,
      goTrimSpace_intToDec, goParseInt_intToDec]
    dsimp only
    rw [parseFishLines_encode rest (fun x hx => h x (List.mem_cons_of_mem _ hx))
      cmd (Time.unix epoch) hcmd]
    simp [fishExpected]

theorem inWindow_some_iff (c : Command) (start stop : Time) :
    inWindow c start (some stop) = true ↔
      start ≤ c.timestamp ∧ c.timestamp ≤ stop := by
  simp only [inWindow, Time.before, Time.after, Bool.and_eq_true,
    Bool.not_eq_true', decide_eq_false_iff_not, not_lt]

theorem inWindow_none_iff (c : Command) (start : Time) :
    inWindow c start none = true ↔ start ≤ c.timestamp := by
  simp only [inWindow, Time.before, Bool.and_eq_true, Bool.not_eq_true',
    decide_eq_false_iff_not, not_lt, Bool.not_false, and_true]

theorem freshCommands_fst_sublist (nt : List Command) (b : Nat) :
    (freshCommands nt b).1.Sublist nt := by
  unfold freshCommands
  split
  · exact List.drop_sublist _ _
  · split
    · exact List.nil_sublist _
    · exact List.Sublist.refl _

theorem clipFresh_sublist (l : List Command) : (clipFresh l).Sublist l := by
  unfold clipFresh
  split
  · exact List.drop_sublist _ _
  · exact List.Sublist.refl _

/-- Structure of the command list produced by `filterCommands`: the windowed
timestamped commands, followed by some sublist of the no-timestamp class. -/
theorem filterCommands_fst_structure (cmds : List Command) (start : Time)
    (stop : Option Time) (b : Nat) :
    ∃ rest : List Command,
      (filterCommands cmds start stop b).1 =
        windowedCommands cmds start stop ++ rest
      ∧ rest.Sublist (noTimestampClass cmds) := by
  unfold filterCommands
  split
  · exact ⟨_, rfl, (clipFresh_sublist _).trans (freshCommands_fst_sublist _ _)⟩
  · exact ⟨[], (List.append_nil _).symm, List.nil_sublist _⟩

/-! ## Claim theorems: shell-history window filtering -/

/-- C3: for every command with a non-zero timestamp `t` and session window
`[start, stop]`, a non-noise command survives the shell-history window filter
iff `start ≤ t ≤ stop` (boundaries inclusive); and every self-noise command
(a handoff start/stop invocation) is removed regardless of its timestamp. -/
theorem c3_window_filter_iff (cmds : List Command) (start stop : Time) (b : Nat) :
    (∀ c ∈ cmds, isHandoffNoise c.raw = false → c.timestamp ≠ 0 →
      (c ∈ (filterCommands cmds start (some stop) b).1 ↔
        start ≤ c.timestamp ∧ c.timestamp ≤ stop))
    ∧ (∀ c : Command, isHandoffNoise c.raw = true →
        c ∉ (filterCommands cmds start (some stop) b).1) := by
  obtain ⟨rest, hEq, hSub⟩ := filterCommands_fst_structure cmds start (some stop) b
  constructor
  · intro c hc hn hz
    rw [hEq]
    simp only [windowedCommands, keepCommands, List.mem_append, List.mem_filter]
    constructor
    · rintro (⟨⟨⟨_, _⟩, _⟩, hw⟩ | hr)
      · exact (inWindow_some_iff c start stop).1 hw
      · exfalso
        have hmem := hSub.subset hr
        simp only [noTimestampClass, keepCommands, List.mem_filter] at hmem
        exact hz (by simpa [Time.isZero] using hmem.2)
    · intro hw
      left
      exact ⟨⟨⟨hc, by simp [hn]⟩, by simp [Time.isZero, hz]⟩,
        (inWindow_some_iff c start stop).2 hw⟩
  · intro c hn
    rw [hEq]
    simp only [windowedCommands, keepCommands, List.mem_append, List.mem_filter]
    rintro (⟨⟨⟨_, hkeep⟩, _⟩, _⟩ | hr)
    · rw [hn] at hkeep; simp at hkeep
    · have hmem := hSub.subset hr
      simp only [noTimestampClass, keepCommands, List.mem_filter] at hmem
      rw [hn] at hmem
      simp at hmem

/-- Witness for C3: a concrete in-window command survives the filter. -/
theorem c3_window_filter_iff_witness :
    Command.mk (gs "ls") 5 ∈
      (filterCommands [Command.mk (gs "ls") 5] 1 (some 9) 0).1 :=
  ((c3_window_filter_iff [Command.mk (gs "ls") 5] 1 9 0).1
    (Command.mk (gs "ls") 5) (by decide) (by decide) (by decide)).mpr (by decide)

/-- Counterexample for C4 as stated: a zero-timestamp self-noise command is
stripped, so the output is not the drop/tail-truncation of the input. -/
theorem c4_counterexample :
    (∀ c ∈ [Command.mk (gs "handoff start") 0], c.timestamp = 0) ∧
    (filterCommands [Command.mk (gs "handoff start") 0] 0 (some 10) 0).1 ≠
      takeLast maxNoTimestampCommands
        ([Command.mk (gs "handoff start") 0].drop 0) := by
  decide

/-- C4 (amended): for every list of zero-timestamp, non-self-noise commands
and every baseline count `b`, the filter output equals the input with its
first `b` entries skipped and then truncated to at most the last
`maxNoTimestampCommands` entries by position, never reordered. -/
theorem c4_no_timestamp_policy (cmds : List Command) (start : Time)
    (stop : Option Time) (b : Nat)
    (hz : ∀ c ∈ cmds, c.timestamp = 0)
    (hn : ∀ c ∈ cmds, isHandoffNoise c.raw = false) :
    (filterCommands cmds start stop b).1 =
      takeLast maxNoTimestampCommands (cmds.drop b) := by
  have hkeep : keepCommands cmds = cmds :=
    List.filter_eq_self.mpr (fun c hc => by simp [hn c hc])
  have hnt : noTimestampClass cmds = cmds := by
    unfold noTimestampClass
    rw [hkeep]
    exact List.filter_eq_self.mpr (fun c hc => by simp [Time.isZero, hz c hc])
  have hw : windowedCommands cmds start stop = [] := by
    unfold windowedCommands
    rw [hkeep]
    have hts : cmds.filter (fun c => !c.timestamp.isZero) = [] :=
      List.filter_eq_nil_iff.mpr (fun c hc => by simp [Time.isZero, hz c hc])
    rw [hts]
    rfl
  unfold filterCommands
  rw [hnt, hw]
  by_cases h0 : cmds.length > 0
  · rw [if_pos h0]
    simp only [List.nil_append]
    by_cases h1 : b > 0 ∧ b < cmds.length
    · rw [freshCommands, if_pos h1]
      rfl
    · by_cases h2 : b ≥ cmds.length
      · rw [freshCommands, if_neg h1, if_pos h2]
        have hdrop : cmds.drop b = [] := by
          rw [List.drop_eq_nil_iff]
          omega
        rw [hdrop]
        rfl
      · rw [freshCommands, if_neg h1, if_neg h2]
        have hb : b = 0 := by omega
        subst hb
        rw [List.drop_zero]
        rfl
  · rw [if_neg h0]
    have hnil : cmds = [] := List.length_eq_zero.mp (by omega)
    subst hnil
    simp [takeLast]

/-- Witness for C4 (amended) at a concrete no-timestamp history. -/
theorem c4_no_timestamp_policy_witness :
    (filterCommands [Command.mk (gs "a") 0, Command.mk (gs "b") 0]
        0 (some 10) 1).1 =
      takeLast maxNoTimestampCommands
        ([Command.mk (gs "a") 0, Command.mk (gs "b") 0].drop 1) :=
  c4_no_timestamp_policy _ 0 (some 10) 1 (by decide) (by decide)

/-- Counterexample for C5 as stated: with an empty parsed history (size 0,
thus not grown past a baseline of 1) the collector returns no commands and
no warning at all. -/
theorem c5_counterexample :
    (ShellCollector.collectParsed []
        ⟨gs "s", 0, some 10, gs "/w", [], [], 1⟩).warnings = [] ∧
    (ShellCollector.collectParsed []
        ⟨gs "s", 0, some 10, gs "/w", [], [], 1⟩).commands = [] := by
  decide

/-- C5 (amended): whenever the no-timestamp class is non-empty and its size
has not grown past the recorded baseline, the shell collector emits the
explicit, actionable not-flushed warning in its result. -/
theorem c5_baseline_warning (parsed : List Command) (sess : Session)
    (h1 : noTimestampClass parsed ≠ [])
    (h2 : (noTimestampClass parsed).length ≤ sess.historyBaselineCount) :
    historyNotFlushedWarning ∈
      (ShellCollector.collectParsed parsed sess).warnings := by
  unfold ShellCollector.collectParsed filterCommands
  have hlen : (noTimestampClass parsed).length > 0 := List.length_pos.mpr h1
  rw [if_pos hlen]
  have hf : freshCommands (noTimestampClass parsed) sess.historyBaselineCount =
      ([], [historyNotFlushedWarning]) := by
    unfold freshCommands
    rw [if_neg (by omega), if_pos (by omega)]
  rw [hf]
  simp [clipFresh]

/-- Witness for C5 (amended) at a concrete non-flushed history. -/
theorem c5_baseline_warning_witness :
    historyNotFlushedWarning ∈
      (ShellCollector.collectParsed [Command.mk (gs "a") 0]
        ⟨gs "s", 0, some 10, gs "/w", [], [], 1⟩).warnings :=
  c5_baseline_warning _ _ (by decide) (by decide)

/-- C10: when the session stop time is unset, the window filter imposes no
upper bound — every non-noise command with a non-zero timestamp at or after
the start time is kept, however far in the future it lies. -/
theorem c10_no_stop_no_upper_bound (cmds : List Command) (start : Time)
    (b : Nat) :
    ∀ c ∈ cmds, isHandoffNoise c.raw = false → c.timestamp ≠ 0 →
      start ≤ c.timestamp → c ∈ (filterCommands cmds start none b).1 := by
  intro c hc hn hz hle
  obtain ⟨rest, hEq, _⟩ := filterCommands_fst_structure cmds start none b
  rw [hEq]
  simp only [windowedCommands, keepCommands, List.mem_append, List.mem_filter]
  left
  exact ⟨⟨⟨hc, by simp [hn]⟩, by simp [Time.isZero, hz]⟩,
    (inWindow_none_iff c start).2 hle⟩

/-- Witness for C10 at a far-future timestamp. -/
theorem c10_no_stop_no_upper_bound_witness :
    Command.mk (gs "make") 99999999999999 ∈
      (filterCommands [Command.mk (gs "make") 99999999999999] 0 none 0).1 :=
  c10_no_stop_no_upper_bound _ 0 0 _ (by decide) (by decide) (by decide)
    (by decide)

/-- Counterexample for C8 as stated: with a mixed bash history (one plain
line, then a timestamped line), parsing preserves input order but the
collected (filtered) list puts the timestamped command first, reordering
the commands relative to the order in which they were encountered. -/
theorem c8_counterexample :
    parseBashHistory [gs "a", gs "#100", gs "b"]
      = [Command.mk (gs "a") 0, Command.mk (gs "b") (Time.unix 100)] ∧
    (filterCommands (parseBashHistory [gs "a", gs "#100", gs "b"])
        0 (some (Time.unix 200)) 0).1
      = [Command.mk (gs "b") (Time.unix 100), Command.mk (gs "a") 0] := by
  decide

/-- C8 (amended): for each of the three shell-history grammars, parsing a
well-formed history recovers exactly the encoded commands with their
timestamps, in input order; and in the collected command list the order is
preserved within each timestamp class — the in-window timestamped commands
(in input order) precede the no-timestamp tail (in input order). -/
theorem c8_grammars_roundtrip_and_order :
    (∀ entries : List (GoStr × Option Int),
      (∀ e ∈ entries, e.1 ≠ [] ∧ (gs "#").isPrefixOf e.1 = false) →
      parseBashHistory (encodeBashHistory entries) = bashExpected entries)
    ∧ (∀ entries : List (GoStr × Int × Nat),
      parseZshHistory (encodeZshHistory entries) = zshExpected entries)
    ∧ (∀ entries : List (GoStr × Int),
      (∀ e ∈ entries, e.1 ≠ []) →
      parseFishHistory (encodeFishHistory entries) = fishExpected entries)
    ∧ (∀ (cmds : List Command) (start : Time) (stop : Option Time) (b : Nat),
      ∃ rest : List Command,
        (filterCommands cmds start stop b).1
          = windowedCommands cmds start stop ++ rest
        ∧ rest.Sublist (noTimestampClass cmds)
        ∧ (windowedCommands cmds start stop).Sublist cmds
        ∧ (noTimestampClass cmds).Sublist cmds) := by
  refine ⟨parseBash_encode, parseZsh_encode, parseFish_encode,
    fun cmds start stop b => ?_⟩
  obtain ⟨rest, h1, h2⟩ := filterCommands_fst_structure cmds start stop b
  refine ⟨rest, h1, h2, ?_, ?_⟩
  · simp only [windowedCommands, keepCommands]
    exact (List.filter_sublist _).trans
      ((List.filter_sublist _).trans (List.filter_sublist _))
  · simp only [noTimestampClass, keepCommands]
    exact (List.filter_sublist _).trans (List.filter_sublist _)

/-- Witness for C8 (amended) at a concrete bash history. -/
theorem c8_grammars_witness :
    parseBashHistory (encodeBashHistory [(gs "ls", some 100), (gs "pwd", none)])
      = bashExpected [(gs "ls", some 100), (gs "pwd", none)] :=
  c8_grammars_roundtrip_and_order.1 _ (by decide)

/-- C6: a branch-query failure with exit status 128 yields a non-fatal
result with no git snapshot and a "not a git repository" warning; any git
query failing with any other non-zero exit makes the collector fatal; and
on success all snapshot fields (branch, head, diffs, session-window log)
are populated from the query outputs. -/
theorem c6_git_exit_codes (runner : GitRunner) (gwd : GoStr) (sess : Session) :
    (∀ e, runner (gitWorkDir gwd sess) gitBranchArgs = .error e →
      isExitCode128 e = true →
      GitCollector.collect runner gwd sess
        = .ok { warnings := [gs "not a git repository"] })
    ∧ (∀ e, runner (gitWorkDir gwd sess) gitBranchArgs = .error e →
      isExitCode128 e = false →
      GitCollector.collect runner gwd sess = .error e)
    ∧ (∀ branch e, runner (gitWorkDir gwd sess) gitBranchArgs = .ok branch →
      runner (gitWorkDir gwd sess) gitHeadArgs = .error e →
      isExitCode128 e = false →
      GitCollector.collect runner gwd sess = .error e)
    ∧ (∀ branch headC e, runner (gitWorkDir gwd sess) gitBranchArgs = .ok branch →
      runner (gitWorkDir gwd sess) gitHeadArgs = .ok headC →
      runner (gitWorkDir gwd sess) gitDiffArgs = .error e →
      isExitCode128 e = false →
      GitCollector.collect runner gwd sess = .error e)
    ∧ (∀ branch headC diff e,
      runner (gitWorkDir gwd sess) gitBranchArgs = .ok branch →
      runner (gitWorkDir gwd sess) gitHeadArgs = .ok headC →
      runner (gitWorkDir gwd sess) gitDiffArgs = .ok diff →
      runner (gitWorkDir gwd sess) gitStagedArgs = .error e →
      isExitCode128 e = false →
      GitCollector.collect runner gwd sess = .error e)
    ∧ (∀ branch headC diff staged e,
      runner (gitWorkDir gwd sess) gitBranchArgs = .ok branch →
      runner (gitWorkDir gwd sess) gitHeadArgs = .ok headC →
      runner (gitWorkDir gwd sess) gitDiffArgs = .ok diff →
      runner (gitWorkDir gwd sess) gitStagedArgs = .ok staged →
      runner (gitWorkDir gwd sess) (gitLogArgs sess.startTime) = .error e →
      isExitCode128 e = false →
      GitCollector.collect runner gwd sess = .error e)
    ∧ (∀ branch headC diff staged logOut,
      runner (gitWorkDir gwd sess) gitBranchArgs = .ok branch →
      runner (gitWorkDir gwd sess) gitHeadArgs = .ok headC →
      runner (gitWorkDir gwd sess) gitDiffArgs = .ok diff →
      runner (gitWorkDir gwd sess) gitStagedArgs = .ok staged →
      runner (gitWorkDir gwd sess) (gitLogArgs sess.startTime) = .ok logOut →
      GitCollector.collect runner gwd sess = .ok { gitInfo := some {
        branch := goTrimSpace branch,
        headCommit := goTrimSpace headC,
        diff := diff,
        stagedDiff := staged,
        recentLog := parseLogLines logOut } }) := by
  refine ⟨?_, ?_, ?_, ?_, ?_, ?_, ?_⟩
  · intro e h1 h128
    unfold GitCollector.collect
    rw [h1]
    simp [h128]
  · intro e h1 h128
    unfold GitCollector.collect
    rw [h1]
    simp [h128]
  · intro branch e h1 h2 _
    unfold GitCollector.collect
    rw [h1, h2]
  · intro branch headC e h1 h2 h3 _
    unfold GitCollector.collect
    rw [h1, h2, h3]
  · intro branch headC diff e h1 h2 h3 h4 _
    unfold GitCollector.collect
    rw [h1, h2, h3, h4]
  · intro branch headC diff staged e h1 h2 h3 h4 h5 _
    unfold GitCollector.collect
    rw [h1, h2, h3, h4, h5]
  · intro branch headC diff staged logOut h1 h2 h3 h4 h5
    unfold GitCollector.collect
    rw [h1, h2, h3, h4, h5]

/-- Witness for C6: a concrete runner failing with exit code 128. -/
theorem c6_git_exit_codes_witness :
    GitCollector.collect (fun _ _ => Except.error (ExecErr.exit 128)) (gs "/w")
        ⟨gs "s", 0, none, gs "/w", [], [], 0⟩
      = .ok { warnings := [gs "not a git repository"] } :=
  (c6_git_exit_codes (fun _ _ => Except.error (ExecErr.exit 128)) (gs "/w")
    ⟨gs "s", 0, none, gs "/w", [], [], 0⟩).1 (ExecErr.exit 128) rfl rfl

theorem updateLater_keys (m : List (GoStr × Time)) (p : GoStr) (t : Time) :
    ∀ x, x ∈ (updateLater m p t).map Prod.fst ↔ x ∈ m.map Prod.fst ∨ x = p := by
  induction m with
  | nil => intro x; simp [updateLater]
  | cons e rest ih =>
    obtain ⟨q, t0⟩ := e
    intro x
    by_cases hqp : q = p
    · subst hqp
      rw [updateLater]
      simp only [if_pos rfl]
      cases ha : Time.after t t0 <;> simp [ha] <;> tauto
    · rw [updateLater]
      simp only [if_neg hqp]
      simp only [List.map_cons, List.mem_cons, ih x]
      tauto

theorem updateLater_keys_nodup (m : List (GoStr × Time)) (p : GoStr) (t : Time)
    (h : (m.map Prod.fst).Nodup) : ((updateLater m p t).map Prod.fst).Nodup := by
  induction m with
  | nil => simp [updateLater]
  | cons e rest ih =>
    obtain ⟨q, t0⟩ := e
    simp only [List.map_cons, List.nodup_cons] at h
    by_cases hqp : q = p
    · subst hqp
      rw [updateLater]
      simp only [if_pos rfl]
      cases ha : Time.after t t0 <;> simp only [ha, if_true, if_false,
        Bool.false_eq_true, List.map_cons, List.nodup_cons] <;>
        exact ⟨h.1, h.2⟩
    · rw [updateLater]
      simp only [if_neg hqp, List.map_cons, List.nodup_cons]
      refine ⟨?_, ih h.2⟩
      rw [updateLater_keys]
      rintro (hq | rfl)
      · exact h.1 hq
      · exact hqp rfl

theorem lookupA_updateLater_self (m : List (GoStr × Time)) (p : GoStr) (t : Time) :
    lookupA (updateLater m p t) p = some (combineMax (lookupA m p) t) := by
  induction m with
  | nil => simp [updateLater, lookupA, combineMax]
  | cons e rest ih =>
    obtain ⟨q, t0⟩ := e
    by_cases hqp : q = p
    · subst hqp
      rw [updateLater]
      simp only [if_pos rfl]
      cases ha : Time.after t t0 <;> simp [ha, lookupA, combineMax]
    · rw [updateLater]
      simp only [if_neg hqp]
      simp [lookupA, hqp, ih]

theorem lookupA_updateLater_other (m : List (GoStr × Time)) (p q : GoStr)
    (t : Time) (h : q ≠ p) :
    lookupA (updateLater m p t) q = lookupA m q := by
  induction m with
  | nil =>
    have hpq : ¬ p = q := fun he => h he.symm
    simp [updateLater, lookupA, hpq]
  | cons e rest ih =>
    obtain ⟨r, t0⟩ := e
    by_cases hrp : r = p
    · subst hrp
      rw [updateLater]
      simp only [if_pos rfl]
      have hrq : ¬ r = q := fun he => h (he.symm)
      cases ha : Time.after t t0 <;> simp [ha, lookupA, hrq]
    · rw [updateLater]
      simp only [if_neg hrp]
      by_cases hrq : r = q
      · subst hrq
        simp [lookupA]
      · simp [lookupA, hrq, ih]

theorem foldUpdate_keys_nodup (evs : List (GoStr × Time)) :
    ∀ m, (m.map Prod.fst).Nodup → ((foldUpdate m evs).map Prod.fst).Nodup := by
  induction evs with
  | nil => intro m h; exact h
  | cons e evs ih =>
    intro m h
    exact ih _ (updateLater_keys_nodup m e.1 e.2 h)

theorem lookupA_foldUpdate (evs : List (GoStr × Time)) :
    ∀ (m : List (GoStr × Time)) (p : GoStr),
      lookupA (foldUpdate m evs) p
        = foldMax (lookupA m p) ((evs.filter (fun e => e.1 == p)).map Prod.snd) := by
  induction evs with
  | nil => intro m p; rfl
  | cons e evs ih =>
    intro m p
    rw [show foldUpdate m (e :: evs) = foldUpdate (updateLater m e.1 e.2) evs
      from rfl]
    rw [List.filter_cons]
    by_cases hep : e.1 = p
    · rw [if_pos (by simp [hep])]
      rw [ih]
      have h2 : lookupA (updateLater m e.1 e.2) p
          = some (combineMax (lookupA m p) e.2) := by
        rw [hep]
        exact lookupA_updateLater_self m p e.2
      rw [h2]
      rfl
    · rw [if_neg (by simp [hep])]
      rw [ih, lookupA_updateLater_other _ _ _ _ (fun he => hep he.symm)]

theorem combineMax_none (t : Time) : combineMax none t = t := rfl

theorem combineMax_some (t0 t : Time) :
    combineMax (some t0) t = if t0 < t then t else t0 := by
  simp [combineMax, Time.after]

theorem foldMax_spec (ts : List Time) :
    ∀ (o : Option Time) (T : Time), foldMax o ts = some T →
      (T ∈ ts ∨ o = some T) ∧ (∀ t ∈ ts, t ≤ T) ∧
        (∀ t0, o = some t0 → t0 ≤ T) := by
  induction ts with
  | nil =>
    intro o T h
    refine ⟨Or.inr h, by simp, ?_⟩
    intro t0 h0
    rw [h0] at h
    injection h with h
    exact le_of_eq h
  | cons t ts ih =>
    intro o T h
    rw [show foldMax o (t :: ts) = foldMax (some (combineMax o t)) ts from rfl] at h
    obtain ⟨h1, h2, h3⟩ := ih _ T h
    have hct : t ≤ combineMax o t := by
      cases o with
      | none => rw [combineMax_none]
      | some t0 =>
        rw [combineMax_some]
        split_ifs with hx
        · exact le_refl t
        · exact le_of_not_lt hx
    have hco : ∀ t0, o = some t0 → t0 ≤ combineMax o t := by
      intro t0 h0
      subst h0
      rw [combineMax_some]
      split_ifs with hx
      · exact le_of_lt hx
      · exact le_refl t0
    have hcT : combineMax o t = T → T = t ∨ o = some T := by
      intro hc
      cases o with
      | none =>
        rw [combineMax_none] at hc
        exact Or.inl hc.symm
      | some t0 =>
        rw [combineMax_some] at hc
        split_ifs at hc
        · exact Or.inl hc.symm
        · exact Or.inr (by rw [hc])
    refine ⟨?_, ?_, ?_⟩
    · rcases h1 with h1 | h1
      · exact Or.inl (List.mem_cons_of_mem _ h1)
      · injection h1 with h1
        rcases hcT h1 with h | h
        · exact Or.inl (h ▸ List.mem_cons_self _ _)
        · exact Or.inr h
    · intro x hx
      rcases List.mem_cons.mp hx with rfl | hx
      · exact le_trans hct (h3 _ rfl)
      · exact h2 x hx
    · intro t0 h0
      exact le_trans (hco t0 h0) (h3 _ rfl)

theorem lookupA_of_mem_nodup (m : List (GoStr × Time)) (p : GoStr) (t : Time)
    (hnd : (m.map Prod.fst).Nodup) (hm : (p, t) ∈ m) : lookupA m p = some t := by
  induction m with
  | nil => cases hm
  | cons e rest ih =>
    obtain ⟨q, t0⟩ := e
    simp only [List.map_cons, List.nodup_cons] at hnd
    rcases List.mem_cons.mp hm with he | hm2
    · cases he
      simp [lookupA]
    · have hqp : ¬ q = p := by
        intro he2
        subst he2
        exact hnd.1 (List.mem_map.mpr ⟨(q, t), hm2, rfl⟩)
      simp [lookupA, hqp, ih hnd.2 hm2]

theorem mtimeInWindow_not_or (t start stopT : Time) :
    mtimeInWindow t start stopT = !(Time.before t start || Time.after t stopT) := by
  simp [mtimeInWindow, Bool.not_or]

theorem walkFold_eq (patterns : List GoStr) (workDir : GoStr)
    (start stopT : Time) (walk : List (GoStr × Time)) :
    ∀ m, walk.foldl (fun m e =>
        if FileCollector.isIgnored workDir e.1 patterns then m
        else if Time.before e.2 start || Time.after e.2 stopT then m
        else updateLater m e.1 e.2) m
      = foldUpdate m (walk.filter (fun e =>
          !FileCollector.isIgnored workDir e.1 patterns &&
          mtimeInWindow e.2 start stopT)) := by
  induction walk with
  | nil => intro m; rfl
  | cons e walk ih =>
    intro m
    rw [List.foldl_cons, List.filter_cons]
    by_cases hig : FileCollector.isIgnored workDir e.1 patterns = true
    · rw [if_pos hig, if_neg (by simp [hig]), ih]
    · have hig2 : FileCollector.isIgnored workDir e.1 patterns = false :=
        Bool.eq_false_iff.mpr hig
      rw [if_neg (by simp [hig2])]
      by_cases hw : (Time.before e.2 start || Time.after e.2 stopT) = true
      · rw [if_pos hw,
          if_neg (by simp [hig2, mtimeInWindow_not_or, hw]), ih]
      · have hw2 : (Time.before e.2 start || Time.after e.2 stopT) = false :=
          Bool.eq_false_iff.mpr hw
        rw [if_neg (by simp [hw2]),
          if_pos (by simp [hig2, mtimeInWindow_not_or, hw2])]
        exact ih _

/-- C7: the file-activity collector emits at most one record per path, and
for each retained path the timestamp is the latest among all occurrences of
that path across the session's pre-recorded edits and the in-window
end-of-session directory scan. -/
theorem c7_file_dedup_latest (patterns : List GoStr) (workDir : GoStr)
    (walk : List (GoStr × Time)) (diffOf : GoStr → GoStr) (now : Time)
    (sess : Session) :
    ((FileCollector.collect patterns workDir walk diffOf now sess).fileEdits.map
        (fun fe => fe.path)).Nodup
    ∧ ∀ fe ∈ (FileCollector.collect patterns workDir walk diffOf now sess).fileEdits,
      fe.timestamp ∈ (sessOccurrences sess fe.path ++
          scanOccurrences walk sess.startTime (collectStopTime sess now) fe.path)
      ∧ ∀ t ∈ sessOccurrences sess fe.path ++
          scanOccurrences walk sess.startTime (collectStopTime sess now) fe.path,
        t ≤ fe.timestamp := by
  unfold FileCollector.collect
  rw [walkFold_eq]
  have hnodupkeys : ((foldUpdate
      (foldUpdate [] (sess.fileEdits.map (fun fe => (fe.path, fe.timestamp))))
      (walk.filter (fun e => !FileCollector.isIgnored workDir e.1 patterns &&
        mtimeInWindow e.2 sess.startTime (collectStopTime sess now)))).map
      Prod.fst).Nodup :=
    foldUpdate_keys_nodup _ _ (foldUpdate_keys_nodup _ [] (by simp))
  constructor
  · have h1 : ∀ (L : List (GoStr × Time)),
        (L.map (fun pt => FileEdit.mk pt.1 pt.2 (diffOf pt.1))).map
          (fun fe => fe.path) = L.map Prod.fst := by
      intro L
      simp [List.map_map]
    rw [h1]
    exact hnodupkeys.sublist ((List.filter_sublist _).map Prod.fst)
  · intro fe hfe
    obtain ⟨pt, hptmem, rfl⟩ := List.mem_map.mp hfe
    obtain ⟨hmem, hP⟩ := List.mem_filter.mp hptmem
    have hig : FileCollector.isIgnored workDir pt.1 patterns = false := by
      simpa using hP
    have hlook := lookupA_of_mem_nodup _ _ _ hnodupkeys hmem
    rw [lookupA_foldUpdate, lookupA_foldUpdate] at hlook
    rw [show lookupA [] pt.1 = none from rfl] at hlook
    have happ : ∀ (A B : List Time),
        foldMax (foldMax none A) B = foldMax none (A ++ B) := by
      intro A B
      simp [foldMax, List.foldl_append]
    rw [happ] at hlook
    have hA : (((sess.fileEdits.map (fun fe => (fe.path, fe.timestamp))).filter
        (fun e => e.1 == pt.1)).map Prod.snd) = sessOccurrences sess pt.1 := by
      unfold sessOccurrences
      rw [List.filter_map, List.map_map]
      have hc1 : ((fun e : GoStr × Time => e.1 == pt.1) ∘
          (fun fe : FileEdit => (fe.path, fe.timestamp)))
          = (fun fe : FileEdit => fe.path == pt.1) := rfl
      have hc2 : (Prod.snd ∘ (fun fe : FileEdit => (fe.path, fe.timestamp)))
          = (fun fe : FileEdit => fe.timestamp) := rfl
      rw [hc1, hc2]
    have hB : (((walk.filter (fun e =>
          !FileCollector.isIgnored workDir e.1 patterns &&
          mtimeInWindow e.2 sess.startTime (collectStopTime sess now))).filter
        (fun e => e.1 == pt.1)).map Prod.snd)
        = scanOccurrences walk sess.startTime (collectStopTime sess now) pt.1 := by
      unfold scanOccurrences
      rw [List.filter_filter]
      have hcong : ∀ e ∈ walk,
          ((fun e : GoStr × Time => e.1 == pt.1) e &&
            (fun e : GoStr × Time =>
              !FileCollector.isIgnored workDir e.1 patterns &&
              mtimeInWindow e.2 sess.startTime (collectStopTime sess now)) e)
          = ((fun e : GoStr × Time => e.1 == pt.1 &&
              mtimeInWindow e.2 sess.startTime (collectStopTime sess now)) e) := by
        intro e _
        cases hbeq : (e.1 == pt.1) with
        | false => simp [hbeq]
        | true =>
          have : e.1 = pt.1 := eq_of_beq hbeq
          simp [hbeq, this, hig]
      rw [List.filter_congr hcong]
    rw [hA, hB] at hlook
    obtain ⟨h1, h2, _⟩ := foldMax_spec _ none pt.2 hlook
    exact ⟨h1.resolve_right (by simp), h2⟩

/-- C9: if any collector returns a fatal error during the stop operation,
the operation aborts with an error before the bundle is rendered and before
any output file is written (no irreversible step is performed), and the
persisted Session record is neither modified nor deleted, so a retry is
safe. -/
theorem c9_collector_fatal_aborts (msg : GoStr)
    (collectors : List (Session → Except GoStr CollectorResult))
    (render : ContextBundle → Except GoStr GoStr)
    (writeOk deleteOk : Bool) (now : Time) (author : GoStr)
    (s0 : Session) (e : GoStr)
    (hc : runCollectors collectors (stopSession s0 msg now) {} = .error e) :
    stopRun (some s0) msg collectors render writeOk deleteOk now author
      = { result := .error (gs "collector error: " ++ e), store := some s0,
          events := [], output := none } := by
  unfold stopRun
  dsimp only
  rw [hc]

/-- Witness for C9: a concrete failing collector aborts the operation with
the session record intact and no render, write, or delete performed. -/
theorem c9_collector_fatal_aborts_witness :
    stopRun (some ⟨gs "s", 0, none, gs "/w", [], [], 0⟩) []
        [fun _ => Except.error (gs "boom")] (fun _ => Except.ok [])
        true true 10 []
      = { result := .error (gs "collector error: " ++ gs "boom"),
          store := some ⟨gs "s", 0, none, gs "/w", [], [], 0⟩,
          events := [], output := none } :=
  c9_collector_fatal_aborts [] [fun _ => Except.error (gs "boom")]
    (fun _ => Except.ok []) true true 10 []
    ⟨gs "s", 0, none, gs "/w", [], [], 0⟩ (gs "boom") rfl


theorem parseHexDigit_hexDigitChar (n : Nat) (h : n < 16) :
    parseHexDigit (hexDigitChar n) = some n := by
  interval_cases n <;> decide


theorem parseStrBody_quote (X : GoStr) : parseStrBody ('"' :: X) = some ([], X) := by
  rw [parseStrBody.eq_def]
  try dsimp only
  rw [if_pos rfl]


theorem parseStrBody_esc_quote (X : GoStr) :
    parseStrBody ('\\' :: '"' :: X)
      = (parseStrBody X).map (fun r => ('"' :: r.1, r.2)) := by
  rw [parseStrBody.eq_def]
  try dsimp only
  rw [if_neg (by decide), if_pos rfl]
  try dsimp only
  rw [if_pos rfl]


theorem parseStrBody_esc_back (X : GoStr) :
    parseStrBody ('\\' :: '\\' :: X)
      = (parseStrBody X).map (fun r => ('\\' :: r.1, r.2)) := by
  rw [parseStrBody.eq_def]
  try dsimp only
  rw [if_neg (by decide), if_pos rfl]
  try dsimp only
  rw [if_neg (by decide), if_pos rfl]


theorem parseStrBody_esc_n (X : GoStr) :
    parseStrBody ('\\' :: 'n' :: X)
      = (parseStrBody X).map (fun r => ('\n' :: r.1, r.2)) := by
  rw [parseStrBody.eq_def]
  try dsimp only
  rw [if_neg (by decide), if_pos rfl]
  try dsimp only
  rw [if_neg (by decide), if_neg (by decide), if_neg (by decide),
    if_neg (by decide), if_neg (by decide), if_pos rfl]


theorem parseStrBody_esc_r (X : GoStr) :
    parseStrBody ('\\' :: 'r' :: X)
      = (parseStrBody X).map (fun r => ('\r' :: r.1, r.2)) := by
  rw [parseStrBody.eq_def]
  try dsimp only
  rw [if_neg (by decide), if_pos rfl]
  try dsimp only
  rw [if_neg (by decide), if_neg (by decide), if_neg (by decide),
    if_neg (by decide), if_neg (by decide), if_neg (by decide), if_pos rfl]


theorem parseStrBody_esc_t (X : GoStr) :
    parseStrBody ('\\' :: 't' :: X)
      = (parseStrBody X).map (fun r => ('\t' :: r.1, r.2)) := by
  rw [parseStrBody.eq_def]
  try dsimp only
  rw [if_neg (by decide), if_pos rfl]
  try dsimp only
  rw [if_neg (by decide), if_neg (by decide), if_neg (by decide),
    if_neg (by decide), if_neg (by decide), if_neg (by decide),
    if_neg (by decide), if_pos rfl]


theorem parseStrBody_esc_u (c1 c2 c3 c4 : Char) (d1 d2 d3 d4 : Nat) (X : GoStr)
    (h1 : parseHexDigit c1 = some d1) (h2 : parseHexDigit c2 = some d2)
    (h3 : parseHexDigit c3 = some d3) (h4 : parseHexDigit c4 = some d4) :
    parseStrBody ('\\' :: 'u' :: c1 :: c2 :: c3 :: c4 :: X)
      = (parseStrBody X).map (fun r =>
          (Char.ofNat (((d1 * 16 + d2) * 16 + d3) * 16 + d4) :: r.1, r.2)) := by
  rw [parseStrBody.eq_def]
  try dsimp only
  rw [if_neg (by decide), if_pos rfl]
  try dsimp only
  rw [if_neg (by decide), if_neg (by decide), if_neg (by decide),
    if_neg (by decide), if_neg (by decide), if_neg (by decide),
    if_neg (by decide), if_neg (by decide), if_pos rfl]
  try dsimp only
  rw [h1, h2, h3, h4]


theorem parseStrBody_plain (c : Char) (X : GoStr) (hq : ¬ c = '"')
    (hb : ¬ c = '\\') (hc : ¬ c.toNat < 32) :
    parseStrBody (c :: X) = (parseStrBody X).map (fun r => (c :: r.1, r.2)) := by
  rw [parseStrBody.eq_def]
  try dsimp only
  rw [if_neg hq, if_neg hb, if_neg hc]



theorem parseStrBody_escape (s : GoStr) :
    ∀ rest, parseStrBody ((s.map escapeChar).flatten ++ '"' :: rest)
      = some (s, rest) := by
  induction s with
  | nil =>
    intro rest
    simp only [List.map_nil, List.flatten_nil, List.nil_append]
    exact parseStrBody_quote rest
  | cons c s ih =>
    intro rest
    rw [List.map_cons, List.flatten_cons, List.append_assoc]
    by_cases h1 : c = '"'
    · subst h1
      rw [show escapeChar '"' = ['\\', '"'] from by decide]
      rw [show (['\\', '"'] : GoStr) ++ ((s.map escapeChar).flatten ++ '"' :: rest)
        = '\\' :: '"' :: ((s.map escapeChar).flatten ++ '"' :: rest) from rfl]
      rw [parseStrBody_esc_quote, ih]
      rfl
    · by_cases h2 : c = '\\'
      · subst h2
        rw [show escapeChar '\\' = ['\\', '\\'] from by decide]
        rw [show (['\\', '\\'] : GoStr) ++ ((s.map escapeChar).flatten ++ '"' :: rest)
          = '\\' :: '\\' :: ((s.map escapeChar).flatten ++ '"' :: rest) from rfl]
        rw [parseStrBody_esc_back, ih]
        rfl
      · by_cases h3 : c = '\n'
        · subst h3
          rw [show escapeChar '\n' = ['\\', 'n'] from by decide]
          rw [show (['\\', 'n'] : GoStr) ++ ((s.map escapeChar).flatten ++ '"' :: rest)
            = '\\' :: 'n' :: ((s.map escapeChar).flatten ++ '"' :: rest) from rfl]
          rw [parseStrBody_esc_n, ih]
          rfl
        · by_cases h4 : c = '\r'
          · subst h4
            rw [show escapeChar '\r' = ['\\', 'r'] from by decide]
            rw [show (['\\', 'r'] : GoStr) ++ ((s.map escapeChar).flatten ++ '"' :: rest)
              = '\\' :: 'r' :: ((s.map escapeChar).flatten ++ '"' :: rest) from rfl]
            rw [parseStrBody_esc_r, ih]
            rfl
          · by_cases h5 : c = '\t'
            · subst h5
              rw [show escapeChar '\t' = ['\\', 't'] from by decide]
              rw [show (['\\', 't'] : GoStr) ++ ((s.map escapeChar).flatten ++ '"' :: rest)
                = '\\' :: 't' :: ((s.map escapeChar).flatten ++ '"' :: rest) from rfl]
              rw [parseStrBody_esc_t, ih]
              rfl
            · by_cases h6 : c.toNat < 32 ∨ c = '<' ∨ c = '>' ∨ c = '&'
              · have hlt : c.toNat < 256 := by
                  rcases h6 with h | h | h | h
                  · omega
                  · subst h; decide
                  · subst h; decide
                  · subst h; decide
                rw [escapeChar, if_neg h1, if_neg h2, if_neg h3, if_neg h4,
                  if_neg h5, if_pos h6]
                rw [show (['\\', 'u', '0', '0', hexDigitChar (c.toNat / 16),
                    hexDigitChar (c.toNat % 16)] : GoStr) ++
                    ((s.map escapeChar).flatten ++ '"' :: rest)
                  = '\\' :: 'u' :: '0' :: '0' :: hexDigitChar (c.toNat / 16) ::
                    hexDigitChar (c.toNat % 16) ::
                    ((s.map escapeChar).flatten ++ '"' :: rest) from rfl]
                rw [parseStrBody_esc_u '0' '0' (hexDigitChar (c.toNat / 16))
                  (hexDigitChar (c.toNat % 16)) 0 0 (c.toNat / 16) (c.toNat % 16)
                  _ (by decide) (by decide)
                  (parseHexDigit_hexDigitChar (c.toNat / 16) (by omega))
                  (parseHexDigit_hexDigitChar (c.toNat % 16) (by omega))]
                rw [ih]
                rw [show ((0 * 16 + 0) * 16 + c.toNat / 16) * 16 + c.toNat % 16
                  = c.toNat from by omega]
                rw [Char.ofNat_toNat]
                rfl
              · by_cases h7 : c.toNat = 8232 ∨ c.toNat = 8233
                · rw [escapeChar, if_neg h1, if_neg h2, if_neg h3, if_neg h4,
                    if_neg h5, if_neg h6, if_pos h7]
                  rw [show (['\\', 'u', '2', '0', '2',
                      hexDigitChar (c.toNat % 16)] : GoStr) ++
                      ((s.map escapeChar).flatten ++ '"' :: rest)
                    = '\\' :: 'u' :: '2' :: '0' :: '2' ::
                      hexDigitChar (c.toNat % 16) ::
                      ((s.map escapeChar).flatten ++ '"' :: rest) from rfl]
                  rw [parseStrBody_esc_u '2' '0' '2' (hexDigitChar (c.toNat % 16))
                    2 0 2 (c.toNat % 16) _ (by decide) (by decide) (by decide)
                    (parseHexDigit_hexDigitChar (c.toNat % 16) (by omega))]
                  rw [ih]
                  rw [show ((2 * 16 + 0) * 16 + 2) * 16 + c.toNat % 16
                    = c.toNat from by omega]
                  rw [Char.ofNat_toNat]
                  rfl
                · rw [escapeChar, if_neg h1, if_neg h2, if_neg h3, if_neg h4,
                    if_neg h5, if_neg h6, if_neg h7]
                  rw [show ([c] : GoStr) ++
                      ((s.map escapeChar).flatten ++ '"' :: rest)
                    = c :: ((s.map escapeChar).flatten ++ '"' :: rest) from rfl]
                  rw [parseStrBody_plain c _ h1 h2 (by omega), ih]
                  rfl




theorem skipWS_nonws (c : Char) (cs : GoStr) (h : isJsonWS c = false) :
    skipWS (c :: cs) = c :: cs := by
  simp [skipWS, List.dropWhile, h]


theorem skipWS_ws_append (w x : GoStr) (h : allWS w) : skipWS (w ++ x) = skipWS x := by
  induction w with
  | nil => rfl
  | cons c cs ih =>
    have hc := h c (List.mem_cons_self c cs)
    simp only [List.cons_append, skipWS, List.dropWhile, hc]
    exact ih (fun ch hch => h ch (List.mem_cons_of_mem c hch))


theorem parseVal_ws (fuel : Nat) (w input : GoStr) (h : allWS w) :
    parseVal fuel (w ++ input) = parseVal fuel input := by
  cases fuel with
  | zero => rfl
  | succ fuel =>
    conv_lhs => rw [parseVal.eq_def]
    conv_rhs => rw [parseVal.eq_def]
    dsimp only
    rw [skipWS_ws_append w input h]


theorem parseFields_ws (fuel : Nat) (w input : GoStr) (h : allWS w) :
    parseFields fuel (w ++ input) = parseFields fuel input := by
  cases fuel with
  | zero => rfl
  | succ fuel =>
    conv_lhs => rw [parseFields.eq_def]
    conv_rhs => rw [parseFields.eq_def]
    dsimp only
    rw [skipWS_ws_append w input h]


theorem parseVal_null (fuel : Nat) (rest : GoStr) :
    parseVal (fuel + 1) ('n' :: 'u' :: 'l' :: 'l' :: rest) = some (.null, rest) := rfl


theorem parseVal_true (fuel : Nat) (rest : GoStr) :
    parseVal (fuel + 1) ('t' :: 'r' :: 'u' :: 'e' :: rest) = some (.bool true, rest) := rfl


theorem parseVal_false (fuel : Nat) (rest : GoStr) :
    parseVal (fuel + 1) ('f' :: 'a' :: 'l' :: 's' :: 'e' :: rest)
      = some (.bool false, rest) := rfl


theorem parseVal_quote (fuel : Nat) (rest : GoStr) :
    parseVal (fuel + 1) ('"' :: rest)
      = (parseStrBody rest).map (fun r => (Json.str r.1, r.2)) := by
  simp only [parseVal]
  rw [skipWS_nonws '"' rest (by decide)]
  rfl


set_option maxHeartbeats 1000000 in
theorem parseVal_arr_nil (fuel : Nat) (input rest2 : GoStr)
    (hin : skipWS input = ']' :: rest2) :
    parseVal (fuel + 1) ('[' :: input) = some (.arr [], rest2) := by
  simp only [parseVal]
  rw [skipWS_nonws '[' input (by decide)]
  simp only
  rw [hin]
  rfl


set_option maxHeartbeats 1000000 in
theorem parseVal_arr_cons (fuel : Nat) (input : GoStr) (c : Char) (cs : GoStr)
    (hin : skipWS input = c :: cs) (h : ¬ c = ']') :
    parseVal (fuel + 1) ('[' :: input)
      = (parseItems fuel (c :: cs)).map (fun r => (Json.arr r.1, r.2)) := by
  simp only [parseVal]
  rw [skipWS_nonws '[' input (by decide)]
  simp only
  rw [hin]
  split
  · rename_i rest2 heq
    injection heq with h1 h2
    exact absurd h1 h
  · rfl


set_option maxHeartbeats 1000000 in
theorem parseVal_obj_nil (fuel : Nat) (input rest2 : GoStr)
    (hin : skipWS input = rbrace :: rest2) :
    parseVal (fuel + 1) (lbrace :: input) = some (.obj [], rest2) := by
  simp only [parseVal]
  rw [skipWS_nonws lbrace input (by decide)]
  split
  all_goals rename_i heq
  all_goals try (injection heq with h1 h2; exact absurd h1 (by decide))
  · rename_i hco
    injection heq with h1 h2
    subst h1 h2
    rw [if_pos rfl, hin]
    dsimp only
    rw [if_pos rfl]
  · exact (heq lbrace input rfl).elim


set_option maxHeartbeats 1000000 in
theorem parseVal_obj_cons (fuel : Nat) (input : GoStr) (c2 : Char) (cs : GoStr)
    (hin : skipWS input = c2 :: cs) (h : ¬ c2 = rbrace) :
    parseVal (fuel + 1) (lbrace :: input)
      = (parseFields fuel (c2 :: cs)).map (fun r => (Json.obj r.1, r.2)) := by
  simp only [parseVal]
  rw [skipWS_nonws lbrace input (by decide)]
  split
  all_goals rename_i heq
  all_goals try (injection heq with h1 h2; exact absurd h1 (by decide))
  · rename_i hco
    injection heq with h1 h2
    subst h1 h2
    rw [if_pos rfl, hin]
    dsimp only
    rw [if_neg h]
  · exact (heq lbrace input rfl).elim


theorem parseItems_succ (fuel : Nat) (input : GoStr) :
    parseItems (fuel + 1) input
      = match parseVal fuel input with
        | none => none
        | some (v, rest) =>
          match skipWS rest with
          | [] => none
          | c :: rest2 =>
            if c = ',' then (parseItems fuel rest2).map (fun r => (v :: r.1, r.2))
            else if c = ']' then some ([v], rest2)
            else none := rfl


theorem parseFields_quote (fuel : Nat) (input rest : GoStr)
    (hin : skipWS input = '"' :: rest) :
    parseFields (fuel + 1) input
      = match parseStrBody rest with
        | none => none
        | some (k, rest2) =>
          match skipWS rest2 with
          | ':' :: rest3 =>
            match parseVal fuel rest3 with
            | none => none
            | some (v, rest4) =>
              match skipWS rest4 with
              | [] => none
              | c :: rest5 =>
                if c = ',' then
                  (parseFields fuel rest5).map (fun r => ((k, v) :: r.1, r.2))
                else if c = rbrace then some ([(k, v)], rest5)
                else none
          | _ => none := by
  conv_lhs => rw [parseFields.eq_def]
  dsimp only
  rw [hin]
  rfl


theorem printStr_append (s : GoStr) (X : GoStr) :
    printStr s ++ X = '"' :: ((s.map escapeChar).flatten ++ '"' :: X) := by
  simp [printStr]


section PrintG
variable (opn sep cls : Nat → GoStr) (sp : GoStr)

theorem printJsonG_str (d : Nat) (s : GoStr) :
    printJsonG opn sep cls sp d (.str s) = printStr s := by
  simp only [printJsonG]

theorem printJsonG_arr_nil (d : Nat) :
    printJsonG opn sep cls sp d (.arr []) = gs "[]" := by
  simp only [printJsonG]

theorem printJsonG_arr_cons (d : Nat) (x : Json) (xs : List Json) :
    printJsonG opn sep cls sp d (.arr (x :: xs))
      = '[' :: (opn d ++ printItemsG opn sep cls sp (d + 1) (x :: xs))
          ++ cls d ++ [']'] := by
  simp only [printJsonG]

theorem printJsonG_obj_nil (d : Nat) :
    printJsonG opn sep cls sp d (.obj []) = [lbrace, rbrace] := by
  simp only [printJsonG]

theorem printJsonG_obj_cons (d : Nat) (f : GoStr × Json) (fs : List (GoStr × Json)) :
    printJsonG opn sep cls sp d (.obj (f :: fs))
      = lbrace :: (opn d ++ printFieldsG opn sep cls sp (d + 1) (f :: fs))
          ++ cls d ++ [rbrace] := by
  simp only [printJsonG]

theorem printItemsG_single (dd : Nat) (x : Json) :
    printItemsG opn sep cls sp dd [x] = printJsonG opn sep cls sp dd x := by
  simp only [printItemsG]

theorem printItemsG_cons2 (dd : Nat) (x y : Json) (ys : List Json) :
    printItemsG opn sep cls sp dd (x :: y :: ys)
      = printJsonG opn sep cls sp dd x
          ++ ',' :: (sep dd ++ printItemsG opn sep cls sp dd (y :: ys)) := by
  simp only [printItemsG]

theorem printFieldsG_single (dd : Nat) (f : GoStr × Json) :
    printFieldsG opn sep cls sp dd [f]
      = printStr f.1 ++ ':' :: (sp ++ printJsonG opn sep cls sp dd f.2) := by
  simp only [printFieldsG]

theorem printFieldsG_cons2 (dd : Nat) (f g : GoStr × Json) (gs2 : List (GoStr × Json)) :
    printFieldsG opn sep cls sp dd (f :: g :: gs2)
      = printStr f.1 ++ ':' :: (sp ++ printJsonG opn sep cls sp dd f.2)
          ++ ',' :: (sep dd ++ printFieldsG opn sep cls sp dd (g :: gs2)) := by
  simp only [printFieldsG]

theorem printJsonG_head (d : Nat) (j : Json) :
    ∃ c cs, printJsonG opn sep cls sp d j = c :: cs ∧
      (c = 'n' ∨ c = 't' ∨ c = 'f' ∨ c = '"' ∨ c = '[' ∨ c = lbrace) := by
  cases j with
  | null => exact ⟨'n', _, rfl, .inl rfl⟩
  | bool b =>
    cases b with
    | true => exact ⟨'t', _, rfl, .inr (.inl rfl)⟩
    | false => exact ⟨'f', _, rfl, .inr (.inr (.inl rfl))⟩
  | str s =>
    refine ⟨'"', (s.map escapeChar).flatten ++ ['"'], ?_, by tauto⟩
    rw [printJsonG_str, printStr, List.cons_append]
  | arr xs =>
    cases xs with
    | nil => exact ⟨'[', [']'], by rw [printJsonG_arr_nil]; rfl, by tauto⟩
    | cons x xs =>
      refine ⟨'[', (opn d ++ printItemsG opn sep cls sp (d + 1) (x :: xs))
        ++ cls d ++ [']'], ?_, by tauto⟩
      rw [printJsonG_arr_cons]
      simp
  | obj fs =>
    cases fs with
    | nil => exact ⟨lbrace, [rbrace], by rw [printJsonG_obj_nil], by tauto⟩
    | cons f fs =>
      refine ⟨lbrace, (opn d ++ printFieldsG opn sep cls sp (d + 1) (f :: fs))
        ++ cls d ++ [rbrace], ?_, by tauto⟩
      rw [printJsonG_obj_cons]
      simp

theorem printItemsG_head (dd : Nat) (x : Json) (xs : List Json) :
    ∃ c cs, printItemsG opn sep cls sp dd (x :: xs) = c :: cs
      ∧ ¬ c = ']' ∧ isJsonWS c = false := by
  obtain ⟨c, cs, hx, hc⟩ := printJsonG_head opn sep cls sp dd x
  have hprops : ¬ c = ']' ∧ isJsonWS c = false := by
    rcases hc with h | h | h | h | h | h <;> subst h <;> exact ⟨by decide, by decide⟩
  cases xs with
  | nil => exact ⟨c, cs, by rw [printItemsG_single, hx], hprops⟩
  | cons y ys =>
    exact ⟨c, cs ++ ',' :: (sep dd ++ printItemsG opn sep cls sp dd (y :: ys)),
      by rw [printItemsG_cons2, hx, List.cons_append], hprops⟩

theorem printFieldsG_head (dd : Nat) (f : GoStr × Json) (fs : List (GoStr × Json)) :
    ∃ cs, printFieldsG opn sep cls sp dd (f :: fs) = '"' :: cs := by
  cases fs with
  | nil =>
    refine ⟨(f.1.map escapeChar).flatten ++ '"' :: (':' :: (sp ++ printJsonG opn sep cls sp dd f.2)), ?_⟩
    rw [printFieldsG_single, printStr_append]
  | cons g gs2 =>
    refine ⟨(f.1.map escapeChar).flatten ++ '"' :: (':' :: (sp ++ printJsonG opn sep cls sp dd f.2)
      ++ ',' :: (sep dd ++ printFieldsG opn sep cls sp dd (g :: gs2))), ?_⟩
    rw [printFieldsG_cons2]
    rw [show printStr f.1 ++ ':' :: (sp ++ printJsonG opn sep cls sp dd f.2)
          ++ ',' :: (sep dd ++ printFieldsG opn sep cls sp dd (g :: gs2))
        = printStr f.1 ++ (':' :: (sp ++ printJsonG opn sep cls sp dd f.2)
          ++ ',' :: (sep dd ++ printFieldsG opn sep cls sp dd (g :: gs2))) by simp]
    rw [printStr_append]

end PrintG


theorem allWS_nil : allWS [] := fun ch hch => absurd hch (List.not_mem_nil ch)


theorem jsonDepth_arr (xs : List Json) : jsonDepth (.arr xs) = depthItems xs + 1 := by
  simp only [jsonDepth]


theorem jsonDepth_obj (fs : List (GoStr × Json)) :
    jsonDepth (.obj fs) = depthFields fs + 1 := by
  simp only [jsonDepth]


theorem depthItems_cons (x : Json) (xs : List Json) :
    depthItems (x :: xs) = max (jsonDepth x) (depthItems xs) + 1 := by
  simp only [depthItems]


theorem depthFields_cons (f : GoStr × Json) (fs : List (GoStr × Json)) :
    depthFields (f :: fs) = max (jsonDepth f.2) (depthFields fs) + 1 := by
  simp only [depthFields]


section RoundTrip
variable (opn sep cls : Nat → GoStr) (sp : GoStr)

theorem parse_printG (hopn : ∀ d, allWS (opn d)) (hsep : ∀ d, allWS (sep d))
    (hcls : ∀ d, allWS (cls d)) (hsp : allWS sp) (fuel : Nat) :
    (∀ j d rest, jsonDepth j < fuel →
      parseVal fuel (printJsonG opn sep cls sp d j ++ rest) = some (j, rest))
  ∧ (∀ xs dd w0 w rest, xs ≠ [] → depthItems xs < fuel → allWS w0 → allWS w →
      parseItems fuel
          (w0 ++ printItemsG opn sep cls sp dd xs ++ w ++ ']' :: rest)
        = some (xs, rest))
  ∧ (∀ fs dd w0 w rest, fs ≠ [] → depthFields fs < fuel → allWS w0 → allWS w →
      parseFields fuel
          (w0 ++ printFieldsG opn sep cls sp dd fs ++ w ++ rbrace :: rest)
        = some (fs, rest)) := by
  induction fuel with
  | zero =>
    exact ⟨fun j d rest h => absurd h (Nat.not_lt_zero _),
      fun xs dd w0 w rest h1 h h2 h3 => absurd h (Nat.not_lt_zero _),
      fun fs dd w0 w rest h1 h h2 h3 => absurd h (Nat.not_lt_zero _)⟩
  | succ fuel ih =>
    obtain ⟨ihV, ihI, ihF⟩ := ih
    refine ⟨?_, ?_, ?_⟩
    · intro j d rest hd
      cases j with
      | null => exact parseVal_null fuel rest
      | bool b =>
        cases b with
        | true => exact parseVal_true fuel rest
        | false => exact parseVal_false fuel rest
      | str s =>
        rw [printJsonG_str, printStr_append, parseVal_quote, parseStrBody_escape]
        rfl
      | arr xs =>
        cases xs with
        | nil =>
          rw [printJsonG_arr_nil]
          exact parseVal_arr_nil fuel (']' :: rest) rest
            (skipWS_nonws ']' rest (by decide))
        | cons x xs =>
          rw [printJsonG_arr_cons]
          obtain ⟨c0, cs0, hitems, hc0, hws0⟩ := printItemsG_head opn sep cls sp (d + 1) x xs
          rw [show (('[' :: (opn d ++ printItemsG opn sep cls sp (d + 1) (x :: xs))
                ++ cls d ++ [']']) : GoStr) ++ rest
              = '[' :: (opn d ++ (printItemsG opn sep cls sp (d + 1) (x :: xs)
                  ++ (cls d ++ ']' :: rest))) by simp]
          have hskip : skipWS (opn d ++ (printItemsG opn sep cls sp (d + 1) (x :: xs)
              ++ (cls d ++ ']' :: rest))) = c0 :: (cs0 ++ (cls d ++ ']' :: rest)) := by
            rw [skipWS_ws_append _ _ (hopn d), hitems, List.cons_append]
            exact skipWS_nonws c0 _ hws0
          rw [parseVal_arr_cons fuel _ c0 (cs0 ++ (cls d ++ ']' :: rest)) hskip hc0]
          rw [show (c0 :: (cs0 ++ (cls d ++ ']' :: rest)) : GoStr)
              = (c0 :: cs0) ++ (cls d ++ ']' :: rest) from rfl, ← hitems]
          have hI := ihI (x :: xs) (d + 1) [] (cls d) rest (List.cons_ne_nil x xs)
            (by rw [jsonDepth_arr] at hd; omega) allWS_nil (hcls d)
          simp only [List.nil_append, List.append_assoc] at hI
          rw [hI]
          rfl
      | obj fs =>
        cases fs with
        | nil =>
          rw [printJsonG_obj_nil]
          exact parseVal_obj_nil fuel (rbrace :: rest) rest
            (skipWS_nonws rbrace rest (by decide))
        | cons f fs =>
          rw [printJsonG_obj_cons]
          obtain ⟨cs0, hflds⟩ := printFieldsG_head opn sep cls sp (d + 1) f fs
          rw [show ((lbrace :: (opn d ++ printFieldsG opn sep cls sp (d + 1) (f :: fs))
                ++ cls d ++ [rbrace]) : GoStr) ++ rest
              = lbrace :: (opn d ++ (printFieldsG opn sep cls sp (d + 1) (f :: fs)
                  ++ (cls d ++ rbrace :: rest))) by simp]
          have hskip : skipWS (opn d ++ (printFieldsG opn sep cls sp (d + 1) (f :: fs)
              ++ (cls d ++ rbrace :: rest))) = '"' :: (cs0 ++ (cls d ++ rbrace :: rest)) := by
            rw [skipWS_ws_append _ _ (hopn d), hflds, List.cons_append]
            exact skipWS_nonws '"' _ (by decide)
          rw [parseVal_obj_cons fuel _ '"' (cs0 ++ (cls d ++ rbrace :: rest)) hskip (by decide)]
          rw [show ('"' :: (cs0 ++ (cls d ++ rbrace :: rest)) : GoStr)
              = ('"' :: cs0) ++ (cls d ++ rbrace :: rest) from rfl, ← hflds]
          have hF := ihF (f :: fs) (d + 1) [] (cls d) rest (List.cons_ne_nil f fs)
            (by rw [jsonDepth_obj] at hd; omega) allWS_nil (hcls d)
          simp only [List.nil_append, List.append_assoc] at hF
          rw [hF]
          rfl
    · intro xs dd w0 w rest hne hd hw0 hw
      cases xs with
      | nil => exact absurd rfl hne
      | cons x xs =>
        rw [depthItems_cons] at hd
        have hdx : jsonDepth x < fuel := by omega
        cases xs with
        | nil =>
          rw [printItemsG_single, parseItems_succ]
          simp only [List.append_assoc]
          rw [parseVal_ws fuel w0 _ hw0, ihV x dd (w ++ ']' :: rest) hdx]
          simp only
          rw [skipWS_ws_append _ _ hw, skipWS_nonws ']' rest (by decide)]
          simp only
          rfl
        | cons y ys =>
          rw [printItemsG_cons2]
          rw [show w0 ++ (printJsonG opn sep cls sp dd x
                ++ ',' :: (sep dd ++ printItemsG opn sep cls sp dd (y :: ys)))
                ++ w ++ ']' :: rest
              = w0 ++ (printJsonG opn sep cls sp dd x
                ++ ',' :: (sep dd ++ (printItemsG opn sep cls sp dd (y :: ys)
                  ++ (w ++ ']' :: rest)))) by simp]
          rw [parseItems_succ, parseVal_ws fuel w0 _ hw0, ihV x dd _ hdx]
          simp only
          rw [skipWS_nonws ',' _ (by decide)]
          simp only
          rw [if_pos trivial]
          have hI := ihI (y :: ys) dd (sep dd) w rest (List.cons_ne_nil y ys)
            (by omega) (hsep dd) hw
          simp only [List.append_assoc] at hI
          rw [hI]
          rfl
    · intro fs dd w0 w rest hne hd hw0 hw
      cases fs with
      | nil => exact absurd rfl hne
      | cons f fs =>
        rw [depthFields_cons] at hd
        have hdf : jsonDepth f.2 < fuel := by omega
        cases fs with
        | nil =>
          rw [printFieldsG_single]
          rw [show w0 ++ (printStr f.1
                ++ ':' :: (sp ++ printJsonG opn sep cls sp dd f.2)) ++ w ++ rbrace :: rest
              = w0 ++ (printStr f.1
                ++ ':' :: (sp ++ (printJsonG opn sep cls sp dd f.2
                  ++ (w ++ rbrace :: rest)))) by simp]
          rw [parseFields_ws (fuel + 1) w0 _ hw0]
          rw [printStr_append]
          rw [parseFields_quote fuel _ _ (skipWS_nonws '"' _ (by decide)),
            parseStrBody_escape]
          simp only
          rw [skipWS_nonws ':' _ (by decide)]
          simp only
          rw [parseVal_ws fuel sp _ hsp, ihV f.2 dd _ hdf]
          simp only
          rw [skipWS_ws_append _ _ hw, skipWS_nonws rbrace rest (by decide)]
          simp only
          rfl
        | cons g gs2 =>
          rw [printFieldsG_cons2]
          rw [show w0 ++ (printStr f.1
                ++ ':' :: (sp ++ printJsonG opn sep cls sp dd f.2)
                ++ ',' :: (sep dd ++ printFieldsG opn sep cls sp dd (g :: gs2)))
                ++ w ++ rbrace :: rest
              = w0 ++ (printStr f.1
                ++ ':' :: (sp ++ (printJsonG opn sep cls sp dd f.2
                  ++ ',' :: (sep dd ++ (printFieldsG opn sep cls sp dd (g :: gs2)
                    ++ (w ++ rbrace :: rest)))))) by simp]
          rw [parseFields_ws (fuel + 1) w0 _ hw0]
          rw [printStr_append]
          rw [parseFields_quote fuel _ _ (skipWS_nonws '"' _ (by decide)),
            parseStrBody_escape]
          simp only
          rw [skipWS_nonws ':' _ (by decide)]
          simp only
          rw [parseVal_ws fuel sp _ hsp, ihV f.2 dd _ hdf]
          simp only
          rw [skipWS_nonws ',' _ (by decide)]
          simp only
          rw [if_pos trivial]
          have hF := ihF (g :: gs2) dd (sep dd) w rest (List.cons_ne_nil g gs2)
            (by omega) (hsep dd) hw
          simp only [List.append_assoc] at hF
          rw [hF]
          rfl

end RoundTrip


section DepthLen
variable (opn sep cls : Nat → GoStr) (sp : GoStr)

theorem depth_le_lenG (n : Nat) :
    (∀ (j : Json) (d : Nat), sizeOf j ≤ n →
      jsonDepth j ≤ (printJsonG opn sep cls sp d j).length)
  ∧ (∀ (xs : List Json) (dd : Nat), sizeOf xs ≤ n →
      depthItems xs ≤ (printItemsG opn sep cls sp dd xs).length + 1)
  ∧ (∀ (fs : List (GoStr × Json)) (dd : Nat), sizeOf fs ≤ n →
      depthFields fs ≤ (printFieldsG opn sep cls sp dd fs).length + 1) := by
  induction n with
  | zero =>
    refine ⟨fun j d h => ?_, fun xs dd h => ?_, fun fs dd h => ?_⟩
    · cases j <;> simp at h
    · cases xs with
      | nil => simp [depthItems]
      | cons x xs => simp at h
    · cases fs with
      | nil => simp [depthFields]
      | cons f fs => simp at h
  | succ n ih =>
    obtain ⟨ihJ, ihI, ihF⟩ := ih
    refine ⟨fun j d h => ?_, fun xs dd h => ?_, fun fs dd h => ?_⟩
    · cases j with
      | null => simp [jsonDepth, printJsonG, gs]
      | bool b => cases b <;> simp [jsonDepth, printJsonG, gs]
      | str s =>
        rw [printJsonG_str]
        simp [jsonDepth, printStr]
      | arr xs =>
        rw [jsonDepth_arr]
        have hx : sizeOf xs ≤ n := by cases xs <;> simp at h ⊢ <;> omega
        have := ihI xs (d + 1) hx
        cases xs with
        | nil => rw [printJsonG_arr_nil]; simp [depthItems, gs]
        | cons x xs2 =>
          rw [printJsonG_arr_cons]
          simp only [List.length_cons, List.length_append]
          omega
      | obj fs =>
        rw [jsonDepth_obj]
        have hx : sizeOf fs ≤ n := by cases fs <;> simp at h ⊢ <;> omega
        have := ihF fs (d + 1) hx
        cases fs with
        | nil => rw [printJsonG_obj_nil]; simp [depthFields]
        | cons f fs2 =>
          rw [printJsonG_obj_cons]
          simp only [List.length_cons, List.length_append]
          omega
    · cases xs with
      | nil => simp [depthItems]
      | cons x xs =>
        rw [depthItems_cons]
        simp only [List.cons.sizeOf_spec] at h
        have h1 := ihJ x dd (by omega)
        cases xs with
        | nil =>
          rw [printItemsG_single]
          simp [depthItems]
          omega
        | cons y ys =>
          have h2 := ihI (y :: ys) dd (by omega)
          rw [printItemsG_cons2]
          simp only [List.length_append, List.length_cons]
          omega
    · cases fs with
      | nil => simp [depthFields]
      | cons f fs =>
        rw [depthFields_cons]
        simp only [List.cons.sizeOf_spec, Prod.mk.sizeOf_spec] at h
        have h1 : sizeOf f.2 ≤ n := by
          obtain ⟨a, b⟩ := f
          simp at h ⊢
          omega
        have h2 := ihJ f.2 dd h1
        have hlen : 2 ≤ (printStr f.1).length := by simp [printStr]
        cases fs with
        | nil =>
          rw [printFieldsG_single]
          simp only [List.length_append, List.length_cons, depthFields]
          omega
        | cons g gs2 =>
          have h3 := ihF (g :: gs2) dd (by obtain ⟨a, b⟩ := f; simp at h ⊢; omega)
          rw [printFieldsG_cons2]
          simp only [List.length_append, List.length_cons]
          omega

end DepthLen


theorem allWS_nlind (d : Nat) : allWS ('\n' :: ind d) := by
  intro ch hch
  rcases List.mem_cons.mp hch with h | h
  · subst h; decide
  · rw [List.eq_of_mem_replicate h]; decide


theorem allWS_sp : allWS [' '] := by
  intro ch hch
  rcases List.mem_cons.mp hch with h | h
  · subst h; decide
  · exact absurd h (List.not_mem_nil ch)


theorem jsonUnmarshal_printJson (j : Json) : jsonUnmarshal (printJson j) = some j := by
  have hd : jsonDepth j ≤ (printJson j).length :=
    (depth_le_lenG (fun _ => []) (fun _ => []) (fun _ => []) [] (sizeOf j)).1 j 0
      (Nat.le_refl _)
  have h := (parse_printG (fun _ => []) (fun _ => []) (fun _ => []) []
      (fun _ => allWS_nil) (fun _ => allWS_nil) (fun _ => allWS_nil) allWS_nil
      ((printJson j).length + 1)).1 j 0 [] (by omega)
  rw [List.append_nil] at h
  unfold jsonUnmarshal
  rw [show (printJson j : GoStr) = printJsonG (fun _ => []) (fun _ => []) (fun _ => []) [] 0 j
      from rfl] at hd h ⊢
  rw [h]
  rfl


theorem jsonUnmarshal_printJsonInd (j : Json) :
    jsonUnmarshal (printJsonInd j) = some j := by
  have hd : jsonDepth j ≤ (printJsonInd j).length :=
    (depth_le_lenG (fun d => '\n' :: ind (d + 1)) (fun dd => '\n' :: ind dd)
      (fun d => '\n' :: ind d) [' '] (sizeOf j)).1 j 0 (Nat.le_refl _)
  have h := (parse_printG (fun d => '\n' :: ind (d + 1)) (fun dd => '\n' :: ind dd)
      (fun d => '\n' :: ind d) [' ']
      (fun d => allWS_nlind (d + 1)) (fun dd => allWS_nlind dd)
      (fun d => allWS_nlind d) allWS_sp
      ((printJsonInd j).length + 1)).1 j 0 [] (by omega)
  rw [List.append_nil] at h
  unfold jsonUnmarshal
  rw [show (printJsonInd j : GoStr) = printJsonG (fun d => '\n' :: ind (d + 1))
      (fun dd => '\n' :: ind dd) (fun d => '\n' :: ind d) [' '] 0 j from rfl] at hd h ⊢
  rw [h]
  rfl


theorem decTime_timeJson (t : Time) : decTime (some (timeJson t)) = some t := by
  simp only [timeJson, decTime]
  exact goParseInt_intToDec t


theorem decodeAnnotation_annotationJson (a :  Annotation) :
    decodeAnnotation (annotationJson a) = some a := by
  simp only [annotationJson, decodeAnnotation]
  rw [show jlookup (gs "timestamp")
        [(gs "timestamp", timeJson a.timestamp), (gs "message", .str a.message),
         (gs "is_summary", .bool a.isSummary)] = some (timeJson a.timestamp) from rfl]
  rw [show jlookup (gs "message")
        [(gs "timestamp", timeJson a.timestamp), (gs "message", .str a.message),
         (gs "is_summary", .bool a.isSummary)] = some (.str a.message) from rfl]
  rw [show jlookup (gs "is_summary")
        [(gs "timestamp", timeJson a.timestamp), (gs "message", .str a.message),
         (gs "is_summary", .bool a.isSummary)] = some (.bool a.isSummary) from rfl]
  rw [decTime_timeJson]
  rfl


theorem decodeFileEdit_fileEditJson (f : FileEdit) :
    decodeFileEdit (fileEditJson f) = some f := by
  by_cases hd : f.diff = []
  · simp only [fileEditJson, if_pos hd, decodeFileEdit, List.append_nil]
    rw [show jlookup (gs "path")
          [(gs "path", .str f.path), (gs "timestamp", timeJson f.timestamp)]
        = some (.str f.path) from rfl]
    rw [show jlookup (gs "timestamp")
          [(gs "path", .str f.path), (gs "timestamp", timeJson f.timestamp)]
        = some (timeJson f.timestamp) from rfl]
    rw [show jlookup (gs "diff")
          [(gs "path", .str f.path), (gs "timestamp", timeJson f.timestamp)]
        = none from rfl]
    rw [decTime_timeJson]
    simp only [decStr]
    rw [← hd]
  · simp only [fileEditJson, if_neg hd, decodeFileEdit, List.cons_append,
      List.nil_append]
    rw [show jlookup (gs "path")
          [(gs "path", .str f.path), (gs "timestamp", timeJson f.timestamp),
           (gs "diff", .str f.diff)]
        = some (.str f.path) from rfl]
    rw [show jlookup (gs "timestamp")
          [(gs "path", .str f.path), (gs "timestamp", timeJson f.timestamp),
           (gs "diff", .str f.diff)]
        = some (timeJson f.timestamp) from rfl]
    rw [show jlookup (gs "diff")
          [(gs "path", .str f.path), (gs "timestamp", timeJson f.timestamp),
           (gs "diff", .str f.diff)]
        = some (.str f.diff) from rfl]
    rw [decTime_timeJson]
    rfl


theorem decodeCommand_commandJson (c : Command) :
    decodeCommand (commandJson c) = some c := by
  simp only [commandJson, decodeCommand]
  rw [show jlookup (gs "raw")
        [(gs "raw", .str c.raw), (gs "timestamp", timeJson c.timestamp)]
      = some (.str c.raw) from rfl]
  rw [show jlookup (gs "timestamp")
        [(gs "raw", .str c.raw), (gs "timestamp", timeJson c.timestamp)]
      = some (timeJson c.timestamp) from rfl]
  rw [decTime_timeJson]
  rfl


theorem optMapList_map_some {α β : Type} (g : α → Option β) (f : β → α)
    (h : ∀ x, g (f x) = some x) (xs : List β) :
    optMapList g (xs.map f) = some xs := by
  induction xs with
  | nil => rfl
  | cons x xs ih =>
    simp only [List.map_cons, optMapList, h x, ih]
    rfl


theorem decStrList_strs (ys : List GoStr) :
    decStrList (some (.arr (ys.map (fun l => .str l)))) = some ys := by
  simp only [decStrList, List.map_map]
  exact optMapList_map_some decStr (fun y => some (.str y)) (fun y => rfl) ys


theorem decodeGitInfo_gitInfoJson (g : GitInfo) :
    decodeGitInfo (gitInfoJson g) = some g := by
  simp only [gitInfoJson, decodeGitInfo]
  rw [show jlookup (gs "branch")
        [(gs "branch", .str g.branch), (gs "head_commit", .str g.headCommit),
         (gs "diff", .str g.diff), (gs "staged_diff", .str g.stagedDiff),
         (gs "recent_log", .arr (g.recentLog.map (fun l => .str l)))]
      = some (.str g.branch) from rfl]
  rw [show jlookup (gs "head_commit")
        [(gs "branch", .str g.branch), (gs "head_commit", .str g.headCommit),
         (gs "diff", .str g.diff), (gs "staged_diff", .str g.stagedDiff),
         (gs "recent_log", .arr (g.recentLog.map (fun l => .str l)))]
      = some (.str g.headCommit) from rfl]
  rw [show jlookup (gs "diff")
        [(gs "branch", .str g.branch), (gs "head_commit", .str g.headCommit),
         (gs "diff", .str g.diff), (gs "staged_diff", .str g.stagedDiff),
         (gs "recent_log", .arr (g.recentLog.map (fun l => .str l)))]
      = some (.str g.diff) from rfl]
  rw [show jlookup (gs "staged_diff")
        [(gs "branch", .str g.branch), (gs "head_commit", .str g.headCommit),
         (gs "diff", .str g.diff), (gs "staged_diff", .str g.stagedDiff),
         (gs "recent_log", .arr (g.recentLog.map (fun l => .str l)))]
      = some (.str g.stagedDiff) from rfl]
  rw [show jlookup (gs "recent_log")
        [(gs "branch", .str g.branch), (gs "head_commit", .str g.headCommit),
         (gs "diff", .str g.diff), (gs "staged_diff", .str g.stagedDiff),
         (gs "recent_log", .arr (g.recentLog.map (fun l => .str l)))]
      = some (.arr (g.recentLog.map (fun l => .str l))) from rfl]
  rw [show decStr (some (.str g.branch)) = some g.branch from rfl]
  rw [show decStr (some (.str g.headCommit)) = some g.headCommit from rfl]
  rw [show decStr (some (.str g.diff)) = some g.diff from rfl]
  rw [show decStr (some (.str g.stagedDiff)) = some g.stagedDiff from rfl]
  rw [decStrList_strs]


theorem decSessionMeta_sessionMetaJson (m : SessionMeta) :
    decSessionMeta (some (sessionMetaJson m)) = some m := by
  by_cases ha : m.author = []
  · simp only [sessionMetaJson, if_pos ha, List.append_nil, decSessionMeta]
    rw [show jlookup (gs "id")
          [(gs "id", .str m.id), (gs "start_time", timeJson m.startTime),
           (gs "stop_time", timeJson m.stopTime), (gs "work_dir", .str m.workDir),
           (gs "duration", .str m.duration)]
        = some (.str m.id) from rfl]
    rw [show jlookup (gs "start_time")
          [(gs "id", .str m.id), (gs "start_time", timeJson m.startTime),
           (gs "stop_time", timeJson m.stopTime), (gs "work_dir", .str m.workDir),
           (gs "duration", .str m.duration)]
        = some (timeJson m.startTime) from rfl]
    rw [show jlookup (gs "stop_time")
          [(gs "id", .str m.id), (gs "start_time", timeJson m.startTime),
           (gs "stop_time", timeJson m.stopTime), (gs "work_dir", .str m.workDir),
           (gs "duration", .str m.duration)]
        = some (timeJson m.stopTime) from rfl]
    rw [show jlookup (gs "work_dir")
          [(gs "id", .str m.id), (gs "start_time", timeJson m.startTime),
           (gs "stop_time", timeJson m.stopTime), (gs "work_dir", .str m.workDir),
           (gs "duration", .str m.duration)]
        = some (.str m.workDir) from rfl]
    rw [show jlookup (gs "duration")
          [(gs "id", .str m.id), (gs "start_time", timeJson m.startTime),
           (gs "stop_time", timeJson m.stopTime), (gs "work_dir", .str m.workDir),
           (gs "duration", .str m.duration)]
        = some (.str m.duration) from rfl]
    rw [show jlookup (gs "author")
          [(gs "id", .str m.id), (gs "start_time", timeJson m.startTime),
           (gs "stop_time", timeJson m.stopTime), (gs "work_dir", .str m.workDir),
           (gs "duration", .str m.duration)]
        = none from rfl]
    rw [decTime_timeJson, decTime_timeJson]
    simp only [decStr]
    rw [← ha]
  · simp only [sessionMetaJson, if_neg ha, List.cons_append, List.nil_append,
      decSessionMeta]
    rw [show jlookup (gs "id")
          [(gs "id", .str m.id), (gs "start_time", timeJson m.startTime),
           (gs "stop_time", timeJson m.stopTime), (gs "work_dir", .str m.workDir),
           (gs "duration", .str m.duration), (gs "author", .str m.author)]
        = some (.str m.id) from rfl]
    rw [show jlookup (gs "start_time")
          [(gs "id", .str m.id), (gs "start_time", timeJson m.startTime),
           (gs "stop_time", timeJson m.stopTime), (gs "work_dir", .str m.workDir),
           (gs "duration", .str m.duration), (gs "author", .str m.author)]
        = some (timeJson m.startTime) from rfl]
    rw [show jlookup (gs "stop_time")
          [(gs "id", .str m.id), (gs "start_time", timeJson m.startTime),
           (gs "stop_time", timeJson m.stopTime), (gs "work_dir", .str m.workDir),
           (gs "duration", .str m.duration), (gs "author", .str m.author)]
        = some (timeJson m.stopTime) from rfl]
    rw [show jlookup (gs "work_dir")
          [(gs "id", .str m.id), (gs "start_time", timeJson m.startTime),
           (gs "stop_time", timeJson m.stopTime), (gs "work_dir", .str m.workDir),
           (gs "duration", .str m.duration), (gs "author", .str m.author)]
        = some (.str m.workDir) from rfl]
    rw [show jlookup (gs "duration")
          [(gs "id", .str m.id), (gs "start_time", timeJson m.startTime),
           (gs "stop_time", timeJson m.stopTime), (gs "work_dir", .str m.workDir),
           (gs "duration", .str m.duration), (gs "author", .str m.author)]
        = some (.str m.duration) from rfl]
    rw [show jlookup (gs "author")
          [(gs "id", .str m.id), (gs "start_time", timeJson m.startTime),
           (gs "stop_time", timeJson m.stopTime), (gs "work_dir", .str m.workDir),
           (gs "duration", .str m.duration), (gs "author", .str m.author)]
        = some (.str m.author) from rfl]
    rw [decTime_timeJson, decTime_timeJson]
    rfl


theorem decList_map {α : Type} (g : Json → Option α) (f : α → Json)
    (h : ∀ x, g (f x) = some x) (xs : List α) :
    decList g (some (.arr (xs.map f))) = some xs := by
  simp only [decList]
  exact optMapList_map_some g f h xs


theorem decodeBundle_bundleJson (b : ContextBundle) :
    decodeBundle (bundleJson b) = some b := by
  rcases hg : b.git with _ | g
  · simp only [bundleJson, hg, List.nil_append, List.append_nil, List.cons_append]
    generalize hv1 : sessionMetaJson b.session = v1
    generalize hv2 : Json.arr (b.annotations.map annotationJson) = v2
    generalize hv3 : Json.arr (b.fileEdits.map fileEditJson) = v3
    generalize hv4 : Json.arr (b.commands.map commandJson) = v4
    generalize hv5 : Json.arr (b.editorTabs.map (fun t => Json.str t)) = v5
    simp only [decodeBundle]
    rw [show jlookup (gs "session")
          [(gs "session", v1), (gs "annotations", v2), (gs "file_edits", v3),
           (gs "commands", v4), (gs "editor_tabs", v5)] = some v1 from rfl]
    rw [show jlookup (gs "annotations")
          [(gs "session", v1), (gs "annotations", v2), (gs "file_edits", v3),
           (gs "commands", v4), (gs "editor_tabs", v5)] = some v2 from rfl]
    rw [show jlookup (gs "file_edits")
          [(gs "session", v1), (gs "annotations", v2), (gs "file_edits", v3),
           (gs "commands", v4), (gs "editor_tabs", v5)] = some v3 from rfl]
    rw [show jlookup (gs "git")
          [(gs "session", v1), (gs "annotations", v2), (gs "file_edits", v3),
           (gs "commands", v4), (gs "editor_tabs", v5)] = none from rfl]
    rw [show jlookup (gs "commands")
          [(gs "session", v1), (gs "annotations", v2), (gs "file_edits", v3),
           (gs "commands", v4), (gs "editor_tabs", v5)] = some v4 from rfl]
    rw [show jlookup (gs "editor_tabs")
          [(gs "session", v1), (gs "annotations", v2), (gs "file_edits", v3),
           (gs "commands", v4), (gs "editor_tabs", v5)] = some v5 from rfl]
    rw [← hv1, decSessionMeta_sessionMetaJson]
    try dsimp only
    rw [← hv2, decList_map decodeAnnotation annotationJson
      decodeAnnotation_annotationJson]
    try dsimp only
    rw [← hv3, decList_map decodeFileEdit fileEditJson decodeFileEdit_fileEditJson]
    try dsimp only
    rw [show decGit none = some none from rfl]
    try dsimp only
    rw [← hv4, decList_map decodeCommand commandJson decodeCommand_commandJson]
    try dsimp only
    rw [← hv5, decStrList_strs]
    try dsimp only
    rw [← hg]
  · simp only [bundleJson, hg, List.nil_append, List.append_nil, List.cons_append]
    obtain ⟨L, hL⟩ : ∃ L, gitInfoJson g = .obj L := ⟨_, rfl⟩
    rw [hL]
    generalize hv1 : sessionMetaJson b.session = v1
    generalize hv2 : Json.arr (b.annotations.map annotationJson) = v2
    generalize hv3 : Json.arr (b.fileEdits.map fileEditJson) = v3
    generalize hv4 : Json.arr (b.commands.map commandJson) = v4
    generalize hv5 : Json.arr (b.editorTabs.map (fun t => Json.str t)) = v5
    simp only [decodeBundle]
    rw [show jlookup (gs "session")
          [(gs "session", v1), (gs "annotations", v2), (gs "file_edits", v3),
           (gs "git", .obj L), (gs "commands", v4), (gs "editor_tabs", v5)]
        = some v1 from rfl]
    rw [show jlookup (gs "annotations")
          [(gs "session", v1), (gs "annotations", v2), (gs "file_edits", v3),
           (gs "git", .obj L), (gs "commands", v4), (gs "editor_tabs", v5)]
        = some v2 from rfl]
    rw [show jlookup (gs "file_edits")
          [(gs "session", v1), (gs "annotations", v2), (gs "file_edits", v3),
           (gs "git", .obj L), (gs "commands", v4), (gs "editor_tabs", v5)]
        = some v3 from rfl]
    rw [show jlookup (gs "git")
          [(gs "session", v1), (gs "annotations", v2), (gs "file_edits", v3),
           (gs "git", .obj L), (gs "commands", v4), (gs "editor_tabs", v5)]
        = some (.obj L) from rfl]
    rw [show jlookup (gs "commands")
          [(gs "session", v1), (gs "annotations", v2), (gs "file_edits", v3),
           (gs "git", .obj L), (gs "commands", v4), (gs "editor_tabs", v5)]
        = some v4 from rfl]
    rw [show jlookup (gs "editor_tabs")
          [(gs "session", v1), (gs "annotations", v2), (gs "file_edits", v3),
           (gs "git", .obj L), (gs "commands", v4), (gs "editor_tabs", v5)]
        = some v5 from rfl]
    rw [← hv1, decSessionMeta_sessionMetaJson]
    try dsimp only
    rw [← hv2, decList_map decodeAnnotation annotationJson
      decodeAnnotation_annotationJson]
    try dsimp only
    rw [← hv3, decList_map decodeFileEdit fileEditJson decodeFileEdit_fileEditJson]
    try dsimp only
    rw [show decGit (some (.obj L)) = (decodeGitInfo (.obj L)).map (fun x => some x)
        from rfl]
    rw [← hL, decodeGitInfo_gitInfoJson]
    try dsimp only
    rw [← hv4, decList_map decodeCommand commandJson decodeCommand_commandJson]
    try dsimp only
    rw [← hv5, decStrList_strs]
    try dsimp only
    rw [show (Option.map (fun x => some x) (some g) : Option (Option GitInfo))
        = some (some g) from rfl]
    try dsimp only
    rw [← hg]


set_option maxHeartbeats 1000000 in
theorem utf8DecodeF_encodeChar (fuel : Nat) (c : Char) (bs : List Nat) :
    utf8DecodeF (fuel + 1) (utf8EncodeChar c ++ bs)
      = (utf8DecodeF fuel bs).map (fun s => c :: s) := by
  have hv : c.toNat < 55296 ∨ (57343 < c.toNat ∧ c.toNat < 1114112) := c.valid
  have hofnat : Char.ofNat c.toNat = c := Char.ofNat_toNat c
  by_cases h1 : c.toNat < 128
  · rw [show utf8EncodeChar c = [c.toNat] from by simp [utf8EncodeChar, h1]]
    rw [List.cons_append, List.nil_append]
    simp only [utf8DecodeF]
    rw [if_pos h1, hofnat]
  · by_cases h2 : c.toNat < 2048
    · rw [show utf8EncodeChar c = [192 + c.toNat / 64, 128 + c.toNat % 64] from by
        simp [utf8EncodeChar, h1, h2]]
      rw [List.cons_append, List.cons_append, List.nil_append]
      simp only [utf8DecodeF]
      rw [if_neg (by omega), if_neg (by omega), if_pos (by omega)]
      try dsimp only
      rw [if_pos (by omega), if_pos (by omega)]
      rw [show (192 + c.toNat / 64 - 192) * 64 + (128 + c.toNat % 64 - 128)
          = c.toNat by omega]
      rw [hofnat]
    · by_cases h3 : c.toNat < 65536
      · rw [show utf8EncodeChar c
            = [224 + c.toNat / 4096, 128 + (c.toNat / 64) % 64, 128 + c.toNat % 64]
          from by simp [utf8EncodeChar, h1, h2, h3]]
        rw [List.cons_append, List.cons_append, List.cons_append, List.nil_append]
        simp only [utf8DecodeF]
        rw [if_neg (by omega), if_neg (by omega), if_neg (by omega),
          if_pos (by omega)]
        try dsimp only
        rw [if_pos (by omega)]
        rw [show ((224 + c.toNat / 4096 - 224) * 64 + (128 + (c.toNat / 64) % 64 - 128))
              * 64 + (128 + c.toNat % 64 - 128)
            = c.toNat by omega]
        rw [if_pos (by
          refine ⟨by omega, ?_⟩
          simp only [validScalar, Bool.or_eq_true, Bool.and_eq_true, decide_eq_true_eq]
          omega)]
        rw [hofnat]
      · rw [show utf8EncodeChar c
            = [240 + c.toNat / 262144, 128 + (c.toNat / 4096) % 64,
               128 + (c.toNat / 64) % 64, 128 + c.toNat % 64]
          from by simp [utf8EncodeChar, h1, h2, h3]]
        rw [List.cons_append, List.cons_append, List.cons_append, List.cons_append,
          List.nil_append]
        simp only [utf8DecodeF]
        rw [if_neg (by omega), if_neg (by omega), if_neg (by omega),
          if_neg (by omega), if_pos (by omega)]
        try dsimp only
        rw [if_pos (by omega)]
        rw [show (((240 + c.toNat / 262144 - 240) * 64 + (128 + (c.toNat / 4096) % 64 - 128))
              * 64 + (128 + (c.toNat / 64) % 64 - 128)) * 64 + (128 + c.toNat % 64 - 128)
            = c.toNat by omega]
        rw [if_pos (by omega)]
        rw [hofnat]


theorem utf8DecodeF_encode (s : GoStr) (fuel : Nat) (h : s.length < fuel) :
    utf8DecodeF fuel (utf8Encode s) = some s := by
  induction s generalizing fuel with
  | nil =>
    cases fuel with
    | zero => omega
    | succ fuel => rfl
  | cons c cs ih =>
    cases fuel with
    | zero => omega
    | succ fuel =>
      rw [show utf8Encode (c :: cs) = utf8EncodeChar c ++ utf8Encode cs from by
        simp [utf8Encode]]
      rw [utf8DecodeF_encodeChar, ih fuel (by simp at h; omega)]
      rfl


theorem length_le_utf8Encode (s : GoStr) : s.length ≤ (utf8Encode s).length := by
  induction s with
  | nil => simp [utf8Encode]
  | cons c cs ih =>
    rw [show utf8Encode (c :: cs) = utf8EncodeChar c ++ utf8Encode cs from by
      simp [utf8Encode]]
    have h1 : 1 ≤ (utf8EncodeChar c).length := by
      simp only [utf8EncodeChar]
      split_ifs <;> simp
    simp only [List.length_append, List.length_cons]
    omega


theorem utf8Decode_encode (s : GoStr) : utf8Decode (utf8Encode s) = some s := by
  have := length_le_utf8Encode s
  exact utf8DecodeF_encode s ((utf8Encode s).length + 1) (by omega)


theorem b64DecodeChar_b64Char : ∀ v, v < 64 → b64DecodeChar (b64Char v) = some v := by
  decide


theorem b64Char_ne_pad : ∀ v, v < 64 → ¬ b64Char v = '=' := by
  decide


set_option maxHeartbeats 1000000 in
theorem b64_roundtrip (n : Nat) : ∀ bs : List Nat, bs.length ≤ n →
    (∀ b ∈ bs, b < 256) → b64Decode (b64Encode bs) = some bs := by
  induction n with
  | zero =>
    intro bs hlen hb
    rw [List.length_eq_zero.mp (Nat.le_zero.mp hlen)]
    rfl
  | succ n ih =>
    intro bs hlen hb
    match bs with
    | [] => rfl
    | [b1] =>
      have h1 : b1 < 256 := hb b1 (by simp)
      simp only [b64Encode, b64Decode]
      rw [b64DecodeChar_b64Char (b1 / 4) (by omega),
        b64DecodeChar_b64Char ((b1 % 4) * 16) (by omega)]
      try dsimp only
      rw [if_pos trivial, if_pos ⟨trivial, trivial⟩]
      rw [show b1 / 4 * 4 + (b1 % 4) * 16 / 16 = b1 by omega]
    | [b1, b2] =>
      have h1 : b1 < 256 := hb b1 (by simp)
      have h2 : b2 < 256 := hb b2 (by simp)
      simp only [b64Encode, b64Decode]
      rw [b64DecodeChar_b64Char (b1 / 4) (by omega),
        b64DecodeChar_b64Char ((b1 % 4) * 16 + b2 / 16) (by omega)]
      try dsimp only
      rw [if_neg (b64Char_ne_pad _ (by omega))]
      rw [b64DecodeChar_b64Char ((b2 % 16) * 4) (by omega)]
      try dsimp only
      rw [if_pos trivial, if_pos trivial]
      rw [show b1 / 4 * 4 + ((b1 % 4) * 16 + b2 / 16) / 16 = b1 by omega]
      rw [show (((b1 % 4) * 16 + b2 / 16) % 16) * 16 + (b2 % 16) * 4 / 4 = b2 by omega]
    | b1 :: b2 :: b3 :: bs2 =>
      have h1 : b1 < 256 := hb b1 (by simp)
      have h2 : b2 < 256 := hb b2 (by simp)
      have h3 : b3 < 256 := hb b3 (by simp)
      simp only [b64Encode, b64Decode]
      rw [b64DecodeChar_b64Char (b1 / 4) (by omega),
        b64DecodeChar_b64Char ((b1 % 4) * 16 + b2 / 16) (by omega)]
      try dsimp only
      rw [if_neg (b64Char_ne_pad _ (by omega))]
      rw [b64DecodeChar_b64Char ((b2 % 16) * 4 + b3 / 64) (by omega)]
      try dsimp only
      rw [if_neg (b64Char_ne_pad _ (by omega))]
      rw [b64DecodeChar_b64Char (b3 % 64) (by omega)]
      try dsimp only
      rw [ih bs2 (by simp at hlen; omega) (fun b hbm => hb b (by simp [hbm]))]
      try dsimp only
      rw [show b1 / 4 * 4 + ((b1 % 4) * 16 + b2 / 16) / 16 = b1 by omega]
      rw [show (((b1 % 4) * 16 + b2 / 16) % 16) * 16 + ((b2 % 16) * 4 + b3 / 64) / 4
          = b2 by omega]
      rw [show (((b2 % 16) * 4 + b3 / 64) % 4) * 64 + b3 % 64 = b3 by omega]
      rfl


theorem b64Decode_b64Encode (bs : List Nat) (hb : ∀ b ∈ bs, b < 256) :
    b64Decode (b64Encode bs) = some bs :=
  b64_roundtrip bs.length bs (Nat.le_refl _) hb


theorem utf8EncodeChar_lt_256 (c : Char) : ∀ b ∈ utf8EncodeChar c, b < 256 := by
  intro b hb
  have hv : c.toNat < 55296 ∨ (57343 < c.toNat ∧ c.toNat < 1114112) := c.valid
  simp only [utf8EncodeChar] at hb
  split_ifs at hb <;> simp at hb <;> omega


theorem utf8Encode_lt_256 (s : GoStr) : ∀ b ∈ utf8Encode s, b < 256 := by
  intro b hb
  simp only [utf8Encode, List.mem_flatten] at hb
  obtain ⟨l, hl, hbl⟩ := hb
  simp only [List.mem_map] at hl
  obtain ⟨c, _, hc⟩ := hl
  exact utf8EncodeChar_lt_256 c b (hc ▸ hbl)


theorem b64Char_ne_space : ∀ v, v < 64 → ¬ b64Char v = ' ' := by decide


set_option maxHeartbeats 1000000 in
theorem b64Encode_no_space (n : Nat) : ∀ bs : List Nat, bs.length ≤ n →
    (∀ b ∈ bs, b < 256) → ∀ c ∈ b64Encode bs, ¬ c = ' ' := by
  induction n with
  | zero =>
    intro bs hlen hb c hc
    rw [List.length_eq_zero.mp (Nat.le_zero.mp hlen)] at hc
    simp [b64Encode] at hc
  | succ n ih =>
    intro bs hlen hb c hc
    match bs with
    | [] => simp [b64Encode] at hc
    | [b1] =>
      have h1 : b1 < 256 := hb b1 (by simp)
      simp only [b64Encode, List.mem_cons, List.not_mem_nil, or_false] at hc
      rcases hc with h | h | h | h <;> subst h
      · exact b64Char_ne_space _ (by omega)
      · exact b64Char_ne_space _ (by omega)
      · decide
      · decide
    | [b1, b2] =>
      have h1 : b1 < 256 := hb b1 (by simp)
      have h2 : b2 < 256 := hb b2 (by simp)
      simp only [b64Encode, List.mem_cons, List.not_mem_nil, or_false] at hc
      rcases hc with h | h | h | h <;> subst h
      · exact b64Char_ne_space _ (by omega)
      · exact b64Char_ne_space _ (by omega)
      · exact b64Char_ne_space _ (by omega)
      · decide
    | b1 :: b2 :: b3 :: bs2 =>
      have h1 : b1 < 256 := hb b1 (by simp)
      have h2 : b2 < 256 := hb b2 (by simp)
      have h3 : b3 < 256 := hb b3 (by simp)
      simp only [b64Encode, List.mem_cons] at hc
      rcases hc with h | h | h | h | h
      · subst h; exact b64Char_ne_space _ (by omega)
      · subst h; exact b64Char_ne_space _ (by omega)
      · subst h; exact b64Char_ne_space _ (by omega)
      · subst h; exact b64Char_ne_space _ (by omega)
      · exact ih bs2 (by simp at hlen; omega)
          (fun b hbm => hb b (by simp [hbm])) c h


theorem isPrefixOf_append_left (pat X Y : GoStr) (h : pat.length ≤ X.length) :
    pat.isPrefixOf (X ++ Y) = pat.isPrefixOf X := by
  induction pat generalizing X with
  | nil => simp [List.isPrefixOf]
  | cons p pr ih =>
    cases X with
    | nil => simp at h
    | cons x xs =>
      simp only [List.cons_append, List.isPrefixOf]
      rw [show xs.append Y = xs ++ Y from rfl, ih xs (by simp at h; omega)]


theorem goIndex_found_after (A B pat : GoStr)
    (hnot : ∀ k, k < A.length → pat.isPrefixOf (A.drop k ++ B) = false)
    (hpre : pat.isPrefixOf B = true) :
    goIndex (A ++ B) pat = some A.length := by
  induction A with
  | nil =>
    rw [List.nil_append, goIndex_of_isPrefixOf hpre]
    rfl
  | cons a t ih =>
    have h0 := hnot 0 (by simp)
    rw [List.drop_zero] at h0
    rw [List.cons_append] at h0 ⊢
    rw [goIndex_cons_of_not h0]
    rw [ih (fun k hk => by
      have := hnot (k + 1) (by simp only [List.length_cons]; omega)
      rw [List.drop_succ_cons] at this
      exact this)]
    simp


theorem jsonParse_jsonRender (b : ContextBundle) : jsonParse (jsonRender b) = .ok b := by
  unfold jsonParse jsonRender goUnmarshalBundle
  rw [utf8Decode_encode]
  dsimp only
  rw [jsonUnmarshal_printJsonInd]
  dsimp only
  rw [decodeBundle_bundleJson]


theorem goUnmarshalBundle_goMarshalBundle (b : ContextBundle) :
    goUnmarshalBundle (goMarshalBundle b) = some b := by
  unfold goUnmarshalBundle goMarshalBundle
  rw [utf8Decode_encode]
  dsimp only
  rw [jsonUnmarshal_printJson]
  dsimp only
  rw [decodeBundle_bundleJson]


set_option maxHeartbeats 2000000 in
theorem markdownParse_markdownRender (b : ContextBundle) :
    markdownParse (markdownRender b) = .ok b := by
  have hb256 : ∀ x ∈ goMarshalBundle b, x < 256 := utf8Encode_lt_256 _
  have hnosp : ∀ c ∈ b64Encode (goMarshalBundle b), ¬ c = ' ' :=
    b64Encode_no_space (goMarshalBundle b).length _ (Nat.le_refl _) hb256
  have hshape : markdownRender b
      = (gs "<!-- handoff-bundle-version: 1 -->\n" ++ gs "<!-- handoff-data: ")
        ++ (b64Encode (goMarshalBundle b) ++ (gs " -->\n\n" ++ markdownBody b)) := by
    unfold markdownRender
    simp [List.append_assoc]
  -- the sentinel is a prefix of the whole document
  have hcont : goContains (markdownRender b)
      (gs "<!-- handoff-bundle-version: 1 -->") = true := by
    unfold goContains
    rw [show markdownRender b = gs "<!-- handoff-bundle-version: 1 -->"
        ++ (gs "\n<!-- handoff-data: "
          ++ (b64Encode (goMarshalBundle b) ++ (gs " -->\n\n" ++ markdownBody b))) from by
      unfold markdownRender
      simp [gs, List.append_assoc]]
    rw [goIndex_of_isPrefixOf (isPrefixOf_append_self _ _)]
    rfl
  -- the data prefix is first found right after the version line
  have hidx : goIndex (markdownRender b) (gs "<!-- handoff-data: ")
      = some 35 := by
    rw [show markdownRender b = gs "<!-- handoff-bundle-version: 1 -->\n"
        ++ (gs "<!-- handoff-data: "
          ++ (b64Encode (goMarshalBundle b) ++ (gs " -->\n\n" ++ markdownBody b))) from by
      unfold markdownRender
      simp [List.append_assoc]]
    rw [goIndex_found_after]
    · rfl
    · intro k hk
      rw [show (gs "<!-- handoff-bundle-version: 1 -->\n").drop k
            ++ (gs "<!-- handoff-data: "
              ++ (b64Encode (goMarshalBundle b) ++ (gs " -->\n\n" ++ markdownBody b)))
          = ((gs "<!-- handoff-bundle-version: 1 -->\n").drop k
              ++ gs "<!-- handoff-data: ")
            ++ (b64Encode (goMarshalBundle b) ++ (gs " -->\n\n" ++ markdownBody b))
          from by simp [List.append_assoc]]
      rw [isPrefixOf_append_left _ _ _ (by
        simp only [List.length_append, List.length_drop]
        simp [gs])]
      have hk2 : k < 35 := by simpa [gs] using hk
      revert hk2
      revert k
      decide
    · exact isPrefixOf_append_self _ _
  unfold markdownParse
  rw [hcont]
  rw [if_neg (by simp)]
  rw [hidx]
  dsimp only
  rw [show (35 : Nat) + (gs "<!-- handoff-data: ").length = 54 from rfl]
  rw [show (markdownRender b).drop 54
      = b64Encode (goMarshalBundle b) ++ (gs " -->\n\n" ++ markdownBody b) from by
    rw [hshape]
    rw [show (54 : Nat) = (gs "<!-- handoff-bundle-version: 1 -->\n"
        ++ gs "<!-- handoff-data: ").length from rfl]
    exact List.drop_left _ _]
  rw [goIndex_skip (gs " -->") ' ' (gs "-->") rfl _ _ hnosp]
  rw [goIndex_of_isPrefixOf
    (show (gs " -->").isPrefixOf (gs " -->\n\n" ++ markdownBody b) = true from by
      rw [show (gs " -->\n\n" ++ markdownBody b : GoStr)
          = gs " -->" ++ (gs "\n\n" ++ markdownBody b) from by simp [gs]]
      exact isPrefixOf_append_self _ _)]
  rw [show (Option.map (· + (b64Encode (goMarshalBundle b)).length)
        (some 0) : Option Nat)
      = some (b64Encode (goMarshalBundle b)).length from by simp]
  dsimp only
  rw [List.take_left]
  rw [b64Decode_b64Encode _ hb256]
  dsimp only
  rw [goUnmarshalBundle_goMarshalBundle]


theorem markdownParse_no_sentinel (content : GoStr)
    (h : goContains content (gs "<!-- handoff-bundle-version: 1 -->") = false) :
    markdownParse content
      = .error (gs "not a valid handoff bundle: missing version sentinel") := by
  unfold markdownParse
  rw [h]
  rw [if_pos (by simp)]


theorem markdownParse_no_prefix (content : GoStr)
    (hs : goContains content (gs "<!-- handoff-bundle-version: 1 -->") = true)
    (h : goIndex content (gs "<!-- handoff-data: ") = none) :
    markdownParse content
      = .error (gs "not a valid handoff bundle: missing data payload") := by
  unfold markdownParse
  rw [hs, h]
  rw [if_neg (by simp)]


theorem markdownParse_no_suffix (content : GoStr) (start0 : Nat)
    (hs : goContains content (gs "<!-- handoff-bundle-version: 1 -->") = true)
    (h : goIndex content (gs "<!-- handoff-data: ") = some start0)
    (h2 : goIndex (content.drop (start0 + (gs "<!-- handoff-data: ").length))
        (gs " -->") = none) :
    markdownParse content
      = .error (gs "not a valid handoff bundle: malformed data payload") := by
  unfold markdownParse
  rw [hs, h]
  rw [if_neg (by simp)]
  dsimp only
  rw [h2]


theorem markdownParse_payload (content : GoStr) (p : GoStr)
    (hs : goContains content (gs "<!-- handoff-bundle-version: 1 -->") = true)
    (h : extractPayload content = some p) :
    markdownParse content = payloadParse p := by
  unfold extractPayload at h
  unfold markdownParse payloadParse
  rw [hs]
  rw [if_neg (by simp)]
  rcases h1 : goIndex content (gs "<!-- handoff-data: ") with _ | start0
  · rw [h1] at h
    exact absurd h (by simp)
  · rw [h1] at h
    dsimp only at h
    rcases h2 : goIndex (content.drop (start0 + (gs "<!-- handoff-data: ").length))
        (gs " -->") with _ | e
    · rw [h2] at h
      exact absurd h (by simp)
    · rw [h2] at h
      dsimp only at h
      injection h with h
      dsimp only
      rw [h2]
      dsimp only
      rw [h]


/-- **C1.** For every `ContextBundle` whose collection fields (annotations,
file edits, git data, commands, editor tabs) are non-empty, rendering it
with a renderer and parsing the output with the matching parser yields a
bundle equal in every field to the original, for both wire forms: the
Markdown form with its embedded base64 payload, and the indented JSON
form. -/
theorem c1_render_parse_roundtrip (b : ContextBundle)
    (_h1 : b.annotations ≠ []) (_h2 : b.fileEdits ≠ []) (_h3 : b.git ≠ none)
    (_h4 : b.commands ≠ []) (_h5 : b.editorTabs ≠ []) :
    markdownParse (markdownRender b) = .ok b ∧ jsonParse (jsonRender b) = .ok b :=
  ⟨markdownParse_markdownRender b, jsonParse_jsonRender b⟩


theorem c1_render_parse_roundtrip_witness :
    (sampleBundle.annotations ≠ [] ∧ sampleBundle.fileEdits ≠ []
      ∧ sampleBundle.git ≠ none ∧ sampleBundle.commands ≠ []
      ∧ sampleBundle.editorTabs ≠ [])
    ∧ (markdownParse (markdownRender sampleBundle) = .ok sampleBundle
      ∧ jsonParse (jsonRender sampleBundle) = .ok sampleBundle) :=
  ⟨⟨by decide, by decide, by decide, by decide, by decide⟩,
    c1_render_parse_roundtrip sampleBundle (by decide) (by decide) (by decide)
      (by decide) (by decide)⟩


/-- **C2.** Markdown-form parsing fails with the `InvalidBundle` error when
the version marker is absent; fails with the `InvalidBundle` errors when the
embedded payload is missing, its closing marker is missing, it is not valid
base64, or the decoded bytes are not a well-formed bundle; and on success
the result is computed solely from the extracted payload, so any two
documents carrying the version marker and the same extracted payload parse
identically, regardless of their human-readable sections. -/
theorem c2_markdown_parse_contract :
    (∀ content : GoStr,
      goContains content (gs "<!-- handoff-bundle-version: 1 -->") = false →
      markdownParse content
        = .error (gs "not a valid handoff bundle: missing version sentinel"))
  ∧ (∀ content : GoStr,
      goContains content (gs "<!-- handoff-bundle-version: 1 -->") = true →
      goIndex content (gs "<!-- handoff-data: ") = none →
      markdownParse content
        = .error (gs "not a valid handoff bundle: missing data payload"))
  ∧ (∀ (content : GoStr) (start0 : Nat),
      goContains content (gs "<!-- handoff-bundle-version: 1 -->") = true →
      goIndex content (gs "<!-- handoff-data: ") = some start0 →
      goIndex (content.drop (start0 + (gs "<!-- handoff-data: ").length))
          (gs " -->") = none →
      markdownParse content
        = .error (gs "not a valid handoff bundle: malformed data payload"))
  ∧ (∀ (content p : GoStr),
      goContains content (gs "<!-- handoff-bundle-version: 1 -->") = true →
      extractPayload content = some p →
      b64Decode p = none →
      markdownParse content
        = .error (gs "not a valid handoff bundle: corrupted base64 payload"))
  ∧ (∀ (content p : GoStr) (bytes : List Nat),
      goContains content (gs "<!-- handoff-bundle-version: 1 -->") = true →
      extractPayload content = some p →
      b64Decode p = some bytes →
      goUnmarshalBundle bytes = none →
      markdownParse content
        = .error (gs "not a valid handoff bundle: failed to parse embedded JSON"))
  ∧ (∀ (c1 c2 p : GoStr),
      goContains c1 (gs "<!-- handoff-bundle-version: 1 -->") = true →
      goContains c2 (gs "<!-- handoff-bundle-version: 1 -->") = true →
      extractPayload c1 = some p → extractPayload c2 = some p →
      markdownParse c1 = markdownParse c2) := by
  refine ⟨markdownParse_no_sentinel, markdownParse_no_prefix,
    markdownParse_no_suffix, ?_, ?_, ?_⟩
  · intro content p hs hx hb
    rw [markdownParse_payload content p hs hx]
    unfold payloadParse
    rw [hb]
  · intro content p bytes hs hx hb hu
    rw [markdownParse_payload content p hs hx]
    unfold payloadParse
    rw [hb]
    dsimp only
    rw [hu]
  · intro c1 c2 p hs1 hs2 hx1 hx2
    rw [markdownParse_payload c1 p hs1 hx1, markdownParse_payload c2 p hs2 hx2]


theorem c2_markdown_parse_contract_witness :
    markdownParse (gs "hello")
      = .error (gs "not a valid handoff bundle: missing version sentinel")
  ∧ markdownParse
      (gs "<!-- handoff-bundle-version: 1 -->\n<!-- handoff-data: AA== -->\n\nTail one")
    = markdownParse
      (gs "<!-- handoff-bundle-version: 1 -->\n<!-- handoff-data: AA== -->\n\nOther text") :=
  ⟨c2_markdown_parse_contract.1 (gs "hello") (by decide),
    c2_markdown_parse_contract.2.2.2.2.2
      (gs "<!-- handoff-bundle-version: 1 -->\n<!-- handoff-data: AA== -->\n\nTail one")
      (gs "<!-- handoff-bundle-version: 1 -->\n<!-- handoff-data: AA== -->\n\nOther text")
      (gs "AA==") (by decide) (by decide) (by decide) (by decide)⟩


end Handoff
